import Mathlib

/-!
Shallow embedding of the clause-extraction and comparison core of the
sidebyside repository, covering:

* `src/lib/pdf/extractParagraphs.ts` (line assembly, footer filter,
  superscript attachment, section boundaries, clause parser, coverage),
* `src/lib/compare/buildComparison.ts` (clause alignment, rows, coverage
  merge, anchors, result assembly),
* `src/lib/diff/tokenizeDiff.ts` (word/sentence/paragraph diff wrappers
  and whitespace-noise collapse),
* `src/lib/utils/paragraphKey.ts` (`normalizeParagraphKey`).

Conventions of the embedding:

* PDF user-space coordinates, widths and heights are rationals (`ℚ`);
  JavaScript `Math.round x` is `⌊x + 1/2⌋` and `Math.floor x` is `⌊x⌋`.
* JavaScript strings are Lean `String`s and the string operations the
  source performs (trim, lower-casing, whitespace collapsing, the
  specific regular expressions) are reimplemented on the character
  list.  The modelled alphabet is ASCII plus the specific punctuation
  characters the source substitutes (typographic dashes, curly quotes,
  bullets, superscript digits); on this alphabet Unicode NFKC
  normalization is the identity, so the `.normalize("NFKC")` step of
  `normalizeFooterText` is the identity and is dropped.
* The external `diff` npm library (`diffWordsWithSpace`, `diffSentences`,
  `diffTrimmedLines`) is not part of the repository; functions that use
  it take the library's change-producing function as an explicit
  argument, and theorems quantify over it.
* JavaScript `Map`s built by insertion with first-occurrence guards are
  modelled by filtering/deduplication that preserves the same
  key-to-value association and ordering.
-/

namespace SideBySide

/- The kernel evaluates rational arithmetic fine, but the library marks
these operations irreducible, which blocks `decide` on concrete
coordinates; restore the default reducibility for this file. -/
attribute [local semireducible] Rat.add Rat.mul Rat.inv Rat.sub Rat.ofScientific

/-! ### Character and string utilities -/

/-- JavaScript `\s` restricted to the modelled alphabet. -/
def jsWsChar (c : Char) : Bool :=
  c == ' ' || c == '\t' || c == '\n' || c == '\r' || c == '\x0b' || c == '\x0c'

def isAsciiDigit (c : Char) : Bool :=
  '0' ≤ c && c ≤ '9'

def isAsciiAlpha (c : Char) : Bool :=
  ('a' ≤ c && c ≤ 'z') || ('A' ≤ c && c ≤ 'Z')

/-- The character class `[A-Za-z0-9]` used by the line-join heuristics. -/
def isWordChar (c : Char) : Bool :=
  isAsciiAlpha c || isAsciiDigit c

def trimChars (l : List Char) : List Char :=
  ((l.dropWhile jsWsChar).reverse.dropWhile jsWsChar).reverse

/-- JavaScript `String.prototype.trim`. -/
def strTrim (s : String) : String :=
  String.mk (trimChars s.data)

/-- JavaScript `String.prototype.trimEnd`. -/
def strTrimEnd (s : String) : String :=
  String.mk ((s.data.reverse.dropWhile jsWsChar).reverse)

def squeezeWsAux : Bool → List Char → List Char
  | _, [] => []
  | prevWs, c :: rest =>
    if jsWsChar c then (if prevWs then [] else [' ']) ++ squeezeWsAux true rest
    else c :: squeezeWsAux false rest

/-- `value.replace(/\s+/g, " ").trim()` — shared helper `collapseSpaces`. -/
def collapseSpaces (s : String) : String :=
  strTrim (String.mk (squeezeWsAux false s.data))

/-- JavaScript `toLowerCase` on the modelled alphabet. -/
def strLower (s : String) : String :=
  String.mk (s.data.map Char.toLower)

/-- `value.replace(/\s+/g, " ").trim().toLowerCase()` — `normalizeHeader`. -/
def normalizeHeader (s : String) : String :=
  strLower (collapseSpaces s)

def seqStartsWith : List Char → List Char → Bool
  | [], _ => true
  | _ :: _, [] => false
  | p :: ps, c :: cs => p == c && seqStartsWith ps cs

def seqContains : List Char → List Char → Bool
  | hay, pat =>
    match hay with
    | [] => seqStartsWith pat []
    | _ :: rest => seqStartsWith pat hay || seqContains rest pat

/-- Substring containment (used for the phrase regex in `likelyFooterLine`). -/
def strContains (s pat : String) : Bool :=
  seqContains s.data pat.data

/-- JavaScript `Math.round` (half-up, also for negatives). -/
def jsRound (q : ℚ) : ℤ :=
  ⌊q + 1/2⌋

/-! ### Diff engine (`src/lib/diff/tokenizeDiff.ts`)

The npm `diff` library's `Change` objects carry `value`, `added?`,
`removed?`; `mapChanges` converts them to `DiffToken`s. -/

inductive TokenKind where
  | equal
  | added
  | removed
deriving DecidableEq, Repr

structure DiffToken where
  value : String
  kind : TokenKind
deriving DecidableEq, Repr

structure Change where
  value : String
  added : Bool
  removed : Bool
deriving DecidableEq, Repr

def mapChanges (changes : List Change) : List DiffToken :=
  changes.map fun change =>
    { value := change.value
      kind :=
        if change.added then TokenKind.added
        else if change.removed then TokenKind.removed
        else TokenKind.equal }

def horizWsChar (c : Char) : Bool :=
  c == ' ' || c == '\t'

def squeezeHorizAux : Bool → List Char → List Char
  | _, [] => []
  | prevWs, c :: rest =>
    if horizWsChar c then (if prevWs then [] else [' ']) ++ squeezeHorizAux true rest
    else c :: squeezeHorizAux false rest

/-- `value.replace(/[ \t]+/g, " ")`. -/
def normalizeHorizontalWhitespace (s : String) : String :=
  String.mk (squeezeHorizAux false s.data)

def isWhitespaceNoiseOnly (a b : String) : Bool :=
  a != b && normalizeHorizontalWhitespace a == normalizeHorizontalWhitespace b

/-- The regex `^[ \t]+$`. -/
def isHorizWsOnlyValue (s : String) : Bool :=
  !s.data.isEmpty && s.data.all horizWsChar

/-- First pass of `collapseWhitespaceNoiseTokens`: whitespace-only
non-equal tokens are relabelled `equal`. -/
def relabelWhitespaceTokens (tokens : List DiffToken) : List DiffToken :=
  tokens.map fun token =>
    if token.kind = TokenKind.equal then token
    else if isHorizWsOnlyValue token.value then { token with kind := TokenKind.equal }
    else token

/-- Second pass: adjacent `(removed, added)` / `(added, removed)` pairs
whose values differ only in horizontal whitespace merge to one `equal`
token (the source loop advances the index past both). -/
def mergeNoisePairs : List DiffToken → List DiffToken
  | [] => []
  | [t] => [t]
  | a :: b :: rest =>
    if a.kind = TokenKind.removed ∧ b.kind = TokenKind.added ∧
        isWhitespaceNoiseOnly a.value b.value then
      { value := b.value, kind := TokenKind.equal } :: mergeNoisePairs rest
    else if a.kind = TokenKind.added ∧ b.kind = TokenKind.removed ∧
        isWhitespaceNoiseOnly b.value a.value then
      { value := a.value, kind := TokenKind.equal } :: mergeNoisePairs rest
    else
      a :: mergeNoisePairs (b :: rest)

/-- Final pass: adjacent tokens of the same kind are merged (the source
appends onto the previously pushed token).  Each step removes one list
element, so `length` fuel makes the recursion structural. -/
def collapseAdjacentF : ℕ → List DiffToken → List DiffToken
  | _, [] => []
  | _, [t] => [t]
  | 0, l => l
  | fuel+1, a :: b :: rest =>
    if a.kind = b.kind then
      collapseAdjacentF fuel ({ value := a.value ++ b.value, kind := a.kind } :: rest)
    else
      a :: collapseAdjacentF fuel (b :: rest)

def collapseAdjacent (l : List DiffToken) : List DiffToken :=
  collapseAdjacentF l.length l

def collapseWhitespaceNoiseTokens (tokens : List DiffToken) : List DiffToken :=
  collapseAdjacent (mergeNoisePairs (relabelWhitespaceTokens tokens))

/-- `buildWordDiff`, parameterized by the external `diffWordsWithSpace`. -/
def buildWordDiff (wordChanges : String → String → List Change)
    (base compared : String) : List DiffToken :=
  collapseWhitespaceNoiseTokens (mapChanges (wordChanges base compared))

/-- `buildSentenceDiff`, parameterized by the external `diffSentences`. -/
def buildSentenceDiff (sentenceChanges : String → String → List Change)
    (base compared : String) : List DiffToken :=
  if isWhitespaceNoiseOnly base compared then [{ value := compared, kind := TokenKind.equal }]
  else mapChanges (sentenceChanges base compared)

/-- `buildParagraphDiff`, parameterized by the external `diffTrimmedLines`. -/
def buildParagraphDiff (trimmedLineChanges : String → String → List Change)
    (base compared : String) : List DiffToken :=
  if isWhitespaceNoiseOnly base compared then [{ value := compared, kind := TokenKind.equal }]
  else if strTrim base = strTrim compared then [{ value := base, kind := TokenKind.equal }]
  else
    let changes := trimmedLineChanges base compared
    if changes.length > 0 then mapChanges changes
    else [{ value := base, kind := TokenKind.removed },
          { value := compared, kind := TokenKind.added }]

/-! ### Data model of the extraction pipeline -/

/-- `PositionedText` — one positioned text run from the PDF provider. -/
structure PositionedText where
  text : String
  x : ℚ
  y : ℚ
  width : ℚ
  height : ℚ
deriving DecidableEq, Repr

/-- `PageLine` — one assembled visual line. -/
structure PageLine where
  page : ℕ
  text : String
  x : ℚ
  y : ℚ
  height : ℚ
  pageHeight : ℚ
deriving DecidableEq, Repr

/-! ### Line assembly (`joinLineFragments` and helpers) -/

/-- `normalizeInlineToken`: `value.replace(/\s+/g, " ").trim()`. -/
def normalizeInlineToken (s : String) : String :=
  collapseSpaces s

def checkFirst (s : String) (p : Char → Bool) : Bool :=
  match s.data.head? with
  | some c => p c
  | none => false

def checkLast (s : String) (p : Char → Bool) : Bool :=
  match s.data.getLast? with
  | some c => p c
  | none => false

/-- The class `[,.;:!?)\]}%]` of closing punctuation. -/
def isClosingPunct (c : Char) : Bool :=
  c == ',' || c == '.' || c == ';' || c == ':' || c == '!' || c == '?' ||
  c == ')' || c == ']' || c == '}' || c == '%'

/-- The class `[-–—/]` of hyphen-like characters in the join heuristic. -/
def isHyphenLike (c : Char) : Bool :=
  c == '-' || c == '–' || c == '—' || c == '/'

/-- The class `[([{]` of opening brackets. -/
def isOpeningBracket (c : Char) : Bool :=
  c == '(' || c == '[' || c == '{'

def shouldAttachWithoutSpace (current token : String) : Bool :=
  if current.isEmpty then true
  else if checkFirst token isClosingPunct then true
  else if checkLast current isHyphenLike || checkFirst token isHyphenLike then true
  else if checkLast current isOpeningBracket then true
  else false

/-- `X_GAP_SPACE_THRESHOLD = 1.2`. -/
def xGapSpaceThreshold : ℚ := 6/5

def spacesStr (n : ℕ) : String :=
  String.mk (List.replicate n ' ')

structure JoinState where
  result : String
  previousRightEdge : ℚ
  firstX : ℚ
  maxHeight : ℚ
deriving Repr

/-- Body of the `for (const fragment of sorted)` loop of
`joinLineFragments`. -/
def joinStep (st : JoinState) (fragment : PositionedText) : JoinState :=
  let token := normalizeInlineToken fragment.text
  if token.isEmpty then st
  else if st.result.isEmpty then
    { result := token
      previousRightEdge := fragment.x + fragment.width
      firstX := fragment.x
      maxHeight := max st.maxHeight fragment.height }
  else
    let gap := fragment.x - st.previousRightEdge
    let withSep :=
      if shouldAttachWithoutSpace st.result token then st.result
      else if gap > xGapSpaceThreshold then
        st.result ++ spacesStr (max 1 (jsRound (gap / (17/5)))).toNat
      else if checkLast st.result isWordChar && checkFirst token isWordChar then
        st.result ++ " "
      else st.result
    { result := withSep ++ token
      previousRightEdge := fragment.x + fragment.width
      firstX := st.firstX
      maxHeight := max st.maxHeight fragment.height }

/-- Stable ascending insertion of a fragment by `x` (later fragments land
after earlier ones with equal `x`, as with JavaScript `toSorted`). -/
def insertByX (f : PositionedText) : List PositionedText → List PositionedText
  | [] => [f]
  | g :: rest => if f.x < g.x then f :: g :: rest else g :: insertByX f rest

def sortByX (l : List PositionedText) : List PositionedText :=
  l.foldl (fun acc f => insertByX f acc) []

structure JoinedLine where
  text : String
  x : ℚ
  y : ℚ
  height : ℚ
deriving DecidableEq, Repr

def joinLineFragments (fragments : List PositionedText) : JoinedLine :=
  let sorted := sortByX fragments
  let y := ((sorted.head?).map (fun f => f.y)).getD 0
  let initFirstX := ((sorted.head?).map (fun f => f.x)).getD 0
  let final := sorted.foldl joinStep
    { result := "", previousRightEdge := 0, firstX := initFirstX, maxHeight := 0 }
  { text := strTrim final.result, x := final.firstX, y := y, height := final.maxHeight }

/-! ### Clause-label grammar (the four regexes of the parser) -/

/-- Greedy `(?:\.\d+)*` after the leading digit run; fuel-driven (each
step consumes at least two characters, so `length` fuel suffices). -/
def parseDotGroupsF : ℕ → List Char → List Char
  | 0, l => l
  | fuel+1, l =>
    match l with
    | '.' :: d :: rest =>
      if isAsciiDigit d then parseDotGroupsF fuel ((d :: rest).dropWhile isAsciiDigit)
      else l
    | _ => l

def parseDotGroups (l : List Char) : List Char :=
  parseDotGroupsF l.length l

/-- Greedy `(?:\([A-Za-z0-9ivxlcdmIVXLCDM]+\))*` — the character class is
exactly the ASCII alphanumerics. -/
def parseParenGroupsF : ℕ → List Char → List Char
  | 0, l => l
  | fuel+1, l =>
    match l with
    | '(' :: c :: rest =>
      if isWordChar c then
        match (c :: rest).dropWhile isWordChar with
        | ')' :: rest2 => parseParenGroupsF fuel rest2
        | _ => l
      else l
    | _ => l

def parseParenGroups (l : List Char) : List Char :=
  parseParenGroupsF l.length l

/-- Consume `<num> = \d+(?:\.\d+)*(?:\(alnum+\))*`, returning the
consumed label characters and the remainder. -/
def splitNum (l : List Char) : Option (List Char × List Char) :=
  let ds := l.takeWhile isAsciiDigit
  if ds.isEmpty then none
  else
    let rest3 := parseParenGroups (parseDotGroups (l.dropWhile isAsciiDigit))
    some (l.take (l.length - rest3.length), rest3)

def headIs (p : Char → Bool) : List Char → Bool
  | c :: _ => p c
  | [] => false

/-- `ROOT_CLAUSE_REGEX = ^<num>[.)]?\s+` with the label captured. -/
def rootClauseMatch (s : String) : Option String :=
  match splitNum s.data with
  | none => none
  | some (label, rest) =>
    match rest with
    | c :: rest2 =>
      if (c == '.' || c == ')') && headIs jsWsChar rest2 then some (String.mk label)
      else if jsWsChar c then some (String.mk label)
      else none
    | [] => none

/-- `ROOT_LABEL_ONLY_REGEX = ^<num>[.)]?$` with the label captured. -/
def rootLabelOnlyMatch (s : String) : Option String :=
  match splitNum s.data with
  | none => none
  | some (label, rest) =>
    match rest with
    | [] => some (String.mk label)
    | [c] => if c == '.' || c == ')' then some (String.mk label) else none
    | _ => none

/-- `MARKER_CLAUSE_REGEX = ^\((tok)\)\s+` with the token captured. -/
def markerClauseMatch (s : String) : Option String :=
  match s.data with
  | '(' :: rest =>
    let tok := rest.takeWhile isWordChar
    if tok.isEmpty then none
    else
      match rest.dropWhile isWordChar with
      | ')' :: rest3 => if headIs jsWsChar rest3 then some (String.mk tok) else none
      | _ => none
  | _ => none

/-- `MARKER_LABEL_ONLY_REGEX = ^\((tok)\)$` with the token captured. -/
def markerLabelOnlyMatch (s : String) : Option String :=
  match s.data with
  | '(' :: rest =>
    let tok := rest.takeWhile isWordChar
    if tok.isEmpty then none
    else
      match rest.dropWhile isWordChar with
      | [')'] => some (String.mk tok)
      | _ => none
  | _ => none

/-- `\s+\S+` — at least one whitespace character followed by at least one
non-whitespace character. -/
def wsThenNonWs (l : List Char) : Bool :=
  match l with
  | c :: rest => jsWsChar c && !((rest.dropWhile jsWsChar).isEmpty)
  | [] => false

/-- `^<num>[.)]?\s+\S+` (first alternative of `looksLikeClauseLine`). -/
def rootClauseWithTextTest (l : List Char) : Bool :=
  match splitNum l with
  | none => false
  | some (_, rest) =>
    match rest with
    | c :: rest2 =>
      if c == '.' || c == ')' then wsThenNonWs rest2
      else wsThenNonWs (c :: rest2)
    | [] => false

/-- `^\(tok\)\s+\S+` (second alternative of `looksLikeClauseLine`). -/
def markerWithTextTest (l : List Char) : Bool :=
  match l with
  | '(' :: rest =>
    if (rest.takeWhile isWordChar).isEmpty then false
    else
      match rest.dropWhile isWordChar with
      | ')' :: rest3 => wsThenNonWs rest3
      | _ => false
  | _ => false

def looksLikeClauseLine (value : String) : Bool :=
  let normalized := collapseSpaces value
  if normalized.isEmpty then false
  else
    rootClauseWithTextTest normalized.data ||
    markerWithTextTest normalized.data ||
    (rootLabelOnlyMatch normalized).isSome ||
    (markerLabelOnlyMatch normalized).isSome

/-! ### Footer filter (`filterFooterLines` and helpers) -/

def quoteChar : Char := Char.ofNat 34

def apostropheChar : Char := Char.ofNat 39

/-- The character substitutions of `normalizeFooterText` (the preceding
`.normalize("NFKC")` is the identity on the modelled alphabet). -/
def normalizeFooterChar (c : Char) : Char :=
  if c == '‐' || c == '‑' || c == '‒' || c == '–' || c == '—' then '-'
  else if c == '“' || c == '”' then quoteChar
  else if c == '‘' || c == '’' then apostropheChar
  else if c == '•' || c == '·' then ' '
  else c

def normalizeFooterText (s : String) : String :=
  collapseSpaces (String.mk (s.data.map normalizeFooterChar))

/-- JavaScript `\w` = `[A-Za-z0-9_]`, used for `\b` boundaries. -/
def isJsWordChar (c : Char) : Bool :=
  isWordChar c || c == '_'

def boundaryOk : List Char → Bool
  | [] => true
  | c :: _ => !isJsWordChar c

def matchDigits (l : List Char) : Option (List Char × List Char) :=
  let ds := l.takeWhile isAsciiDigit
  if ds.isEmpty then none else some (ds, l.dropWhile isAsciiDigit)

/-- The optional `\s*(?:of|\/)\s*\d+` part of the page-token patterns. -/
def matchOfPart (l : List Char) : Option (List Char × List Char) :=
  let ws1 := l.takeWhile jsWsChar
  match l.dropWhile jsWsChar with
  | 'o' :: 'f' :: rest2 =>
    let ws2 := rest2.takeWhile jsWsChar
    (matchDigits (rest2.dropWhile jsWsChar)).map
      fun p => (ws1 ++ ['o', 'f'] ++ ws2 ++ p.1, p.2)
  | '/' :: rest2 =>
    let ws2 := rest2.takeWhile jsWsChar
    (matchDigits (rest2.dropWhile jsWsChar)).map
      fun p => (ws1 ++ ['/'] ++ ws2 ++ p.1, p.2)
  | _ => none

/-- `\bpage\s+\d+(?:\s*(?:of|\/)\s*\d+)?\b` (leading boundary checked by
the scanner; greedy optional part falls back when the trailing boundary
fails, as the regex engine would). -/
def matchPagePattern (l : List Char) : Option (List Char × List Char) :=
  match l with
  | 'p' :: 'a' :: 'g' :: 'e' :: rest =>
    let ws := rest.takeWhile jsWsChar
    if ws.isEmpty then none
    else
      match matchDigits (rest.dropWhile jsWsChar) with
      | none => none
      | some (ds, rest3) =>
        match (matchOfPart rest3).bind
            (fun p => if boundaryOk p.2 then
              some (['p', 'a', 'g', 'e'] ++ ws ++ ds ++ p.1, p.2) else none) with
        | some r => some r
        | none =>
          if boundaryOk rest3 then some (['p', 'a', 'g', 'e'] ++ ws ++ ds, rest3)
          else none
  | _ => none

/-- `\s*\d+(?:\s*(?:of|\/)\s*\d+)?\b` — shared tail of the `p.`-pattern. -/
def matchPTail (l : List Char) : Option (List Char × List Char) :=
  let ws := l.takeWhile jsWsChar
  match matchDigits (l.dropWhile jsWsChar) with
  | none => none
  | some (ds, rest2) =>
    match (matchOfPart rest2).bind
        (fun p => if boundaryOk p.2 then some (ws ++ ds ++ p.1, p.2) else none) with
    | some r => some r
    | none => if boundaryOk rest2 then some (ws ++ ds, rest2) else none

/-- `\bp\.?\s*\d+(?:\s*(?:of|\/)\s*\d+)?\b`. -/
def matchPPattern (l : List Char) : Option (List Char × List Char) :=
  match l with
  | 'p' :: '.' :: rest =>
    (match matchPTail rest with
     | some (m, r) => some ('p' :: '.' :: m, r)
     | none => (matchPTail ('.' :: rest)).map fun p => ('p' :: p.1, p.2))
  | 'p' :: rest => (matchPTail rest).map fun p => ('p' :: p.1, p.2)
  | _ => none

/-- `\b\d+\s*(?:of|\/)\s*\d+\b`. -/
def matchNofMPattern (l : List Char) : Option (List Char × List Char) :=
  match matchDigits l with
  | none => none
  | some (ds, rest) =>
    (matchOfPart rest).bind fun p =>
      if boundaryOk p.2 then some (ds ++ p.1, p.2) else none

/-- Global leftmost replace of a pattern by a single space, tracking the
previous original character for `\b`; fuel-driven (every step consumes at
least one character). -/
def replaceScanF (tryMatch : List Char → Option (List Char × List Char)) :
    ℕ → Option Char → List Char → List Char
  | 0, _, l => l
  | _fuel+1, _prev, [] => []
  | fuel+1, prev, c :: rest =>
    let boundaryBefore := match prev with | none => true | some p => !isJsWordChar p
    match (if boundaryBefore then tryMatch (c :: rest) else none) with
    | some (m, rem) => ' ' :: replaceScanF tryMatch fuel m.getLast? rem
    | none => c :: replaceScanF tryMatch fuel (some c) rest

def replaceAllPattern (tryMatch : List Char → Option (List Char × List Char))
    (s : String) : String :=
  String.mk (replaceScanF tryMatch s.data.length none s.data)

/-- `\p{L}`/`\p{N}` restricted to the modelled alphabet. -/
def isLetterOrNumberChar (c : Char) : Bool :=
  isAsciiAlpha c || isAsciiDigit c

def buildFooterSignature (value : String) : String :=
  let normalized := strLower (normalizeFooterText value)
  if normalized.isEmpty then ""
  else
    let s1 := replaceAllPattern matchPagePattern normalized
    let s2 := replaceAllPattern matchPPattern s1
    let s3 := replaceAllPattern matchNofMPattern s2
    let s4 := String.mk (s3.data.map fun c =>
      if isLetterOrNumberChar c || jsWsChar c then c else ' ')
    collapseSpaces s4

/-- `MIN_REPEAT_SIGNATURE_LENGTH = 12`. -/
def minRepeatSignatureLength : ℕ := 12

/-- `signature.split(" ").filter(Boolean).length`. -/
def countTokenRuns : Bool → List Char → ℕ
  | _, [] => 0
  | inWord, c :: rest =>
    if c == ' ' then countTokenRuns false rest
    else (if inWord then 0 else 1) + countTokenRuns true rest

def isRepeatFooterCandidate (signature : String) : Bool :=
  minRepeatSignatureLength ≤ signature.length &&
  2 ≤ countTokenRuns false signature.data

/-- `^\d{1,4}$`. -/
def isBarePageNumber (l : List Char) : Bool :=
  !l.isEmpty && l.length ≤ 4 && l.all isAsciiDigit

/-- `^(?:page|p\.?)\s*\d+(?:\s*(?:of|\/)\s*\d+)?$` (on lowercased input). -/
def pageRestTest (l : List Char) : Bool :=
  match matchDigits (l.dropWhile jsWsChar) with
  | none => false
  | some (_, r2) =>
    r2.isEmpty ||
      (match matchOfPart r2 with
       | some (_, r3) => r3.isEmpty
       | none => false)

def fullPageForm (l : List Char) : Bool :=
  (match l with
   | 'p' :: 'a' :: 'g' :: 'e' :: r => pageRestTest r
   | _ => false) ||
  (match l with
   | 'p' :: '.' :: r => pageRestTest r
   | 'p' :: r => pageRestTest r
   | _ => false)

/-- `^\d+\s*(?:of|\/)\s*\d+$` (on lowercased input). -/
def nOfMForm (l : List Char) : Bool :=
  match matchDigits l with
  | none => false
  | some (_, r) =>
    match matchOfPart r with
    | some (_, r2) => r2.isEmpty
    | none => false

def footerPhrases : List String :=
  ["copyright", "all rights reserved", "ifrs foundation", "issb", "ifrs s2",
   "climate-related disclosures", "australian accounting standards board",
   "aasb s2", "aasb", "exposure draft", "issued"]

def likelyFooterLine (text : String) : Bool :=
  let normalized := normalizeFooterText text
  if normalized.isEmpty then false
  else if isBarePageNumber normalized.data then true
  else if fullPageForm (strLower normalized).data || nOfMForm (strLower normalized).data then
    true
  else footerPhrases.any fun p => strContains (strLower normalized) p

/-- `FOOTER_REGION_RATIO = 0.14`. -/
def footerBandFrac : ℚ := 7/50

def inFooterBand (line : PageLine) : Bool :=
  decide (line.y ≤ line.pageHeight * footerBandFrac)

/-- `MAX_REPEAT_FOOTER_LENGTH = 140`. -/
def maxRepeatFooterLength : ℕ := 140

def dedupFirstAux {α : Type} [DecidableEq α] : List α → List α → List α
  | _, [] => []
  | seen, x :: rest =>
    if x ∈ seen then dedupFirstAux seen rest else x :: dedupFirstAux (x :: seen) rest

/-- Deduplication keeping first occurrences, in order — the key order of a
JavaScript `Map`/`Set` filled by iteration. -/
def dedupFirst {α : Type} [DecidableEq α] (l : List α) : List α :=
  dedupFirstAux [] l

/-- Pass 1 of `filterFooterLines`: the signature a line contributes to
`repeatedBottomSignatures`, if any. -/
def footerRepeatEntry (line : PageLine) : Option String :=
  if !inFooterBand line then none
  else
    let normalized := normalizeFooterText line.text
    if normalized.isEmpty || maxRepeatFooterLength < normalized.length then none
    else if looksLikeClauseLine normalized then none
    else
      let signature := buildFooterSignature normalized
      if isRepeatFooterCandidate signature then some signature else none

/-- The page set recorded for a signature by pass 1. -/
def footerSignaturePages (lines : List PageLine) (signature : String) : List ℕ :=
  dedupFirst (lines.filterMap fun line =>
    match footerRepeatEntry line with
    | some s => if s = signature then some line.page else none
    | none => none)

/-- Membership in `repeatedFooterSignatureSet` (signatures seen in the
footer band of at least two pages). -/
def hasRepeatedFooterSignature (lines : List PageLine) (signature : String) : Bool :=
  2 ≤ (footerSignaturePages lines signature).length

def headerLookup (normalized : String) : Option String :=
  (["Objective", "Scope", "Core content", "Governance", "Strategy",
    "Risk management", "Metrics and targets"] : List String).find?
    fun h => strLower h = normalized

/-- Pass 2 of `filterFooterLines` — the filter predicate. -/
def keepFooterLine (lines : List PageLine) (line : PageLine) : Bool :=
  if !inFooterBand line then true
  else
    let normalized := normalizeFooterText line.text
    if normalized.isEmpty then true
    else if (headerLookup (normalizeHeader normalized)).isSome then true
    else if likelyFooterLine normalized then false
    else if looksLikeClauseLine normalized then true
    else
      let signature := buildFooterSignature normalized
      if isRepeatFooterCandidate signature && hasRepeatedFooterSignature lines signature then
        false
      else true

def filterFooterLines (lines : List PageLine) : List PageLine :=
  lines.filter (keepFooterLine lines)

/-! ### Superscript attachment (`attachSuperscripts` and helpers) -/

def insertRat (q : ℚ) : List ℚ → List ℚ
  | [] => [q]
  | r :: rest => if q < r then q :: r :: rest else r :: insertRat q rest

/-- Ascending numeric sort, as `[...values].sort((a, b) => a - b)`. -/
def sortRat (l : List ℚ) : List ℚ :=
  l.foldl (fun acc q => insertRat q acc) []

def median (values : List ℚ) : ℚ :=
  if values.isEmpty then 0
  else
    let sorted := sortRat values
    let middle := values.length / 2
    if values.length % 2 = 0 then ((sorted.getD (middle - 1) 0) + sorted.getD middle 0) / 2
    else sorted.getD middle 0

/-- `line.text.replace(/\s+/g, "")`. -/
def stripAllWs (s : String) : String :=
  String.mk (s.data.filter fun c => !jsWsChar c)

/-- `SUPERSCRIPT_CHAR_MAP`. -/
def superscriptCharMap (c : Char) : Option Char :=
  if c == '0' then some '⁰' else if c == '1' then some '¹'
  else if c == '2' then some '²' else if c == '3' then some '³'
  else if c == '4' then some '⁴' else if c == '5' then some '⁵'
  else if c == '6' then some '⁶' else if c == '7' then some '⁷'
  else if c == '8' then some '⁸' else if c == '9' then some '⁹'
  else if c == '+' then some '⁺' else if c == '-' then some '⁻'
  else if c == '=' then some '⁼' else if c == '(' then some '⁽'
  else if c == ')' then some '⁾' else if c == 'n' then some 'ⁿ'
  else if c == 'i' then some 'ⁱ' else none

def mapSuperChars : List Char → Option (List Char)
  | [] => some []
  | c :: rest =>
    match superscriptCharMap c with
    | none => none
    | some m => (mapSuperChars rest).map fun l => m :: l

def toSuperscript (value : String) : String :=
  let collapsed := stripAllWs value
  if collapsed.isEmpty then collapsed
  else
    match mapSuperChars collapsed.data with
    | some converted => String.mk converted
    | none => "^" ++ collapsed

/-- `/^[0-9()+\-=\sni]+$/i`. -/
def superscriptBodyChar (c : Char) : Bool :=
  isAsciiDigit c || c == '(' || c == ')' || c == '+' || c == '-' || c == '=' ||
  jsWsChar c || c == 'n' || c == 'i' || c == 'N' || c == 'I'

/-- `SUPERSCRIPT_HEIGHT_RATIO = 0.82`. -/
def superscriptHeightFrac : ℚ := 41/50

/-- `SUPERSCRIPT_MAX_Y_DELTA = 9`. -/
def superscriptMaxYDelta : ℚ := 9

/-- `SUPERSCRIPT_MAX_LENGTH = 2`. -/
def superscriptMaxLength : ℕ := 2

def isSuperscriptCandidate (line : PageLine) (pageMedianHeight : ℚ) : Bool :=
  let candidate := stripAllWs line.text
  if candidate.isEmpty || superscriptMaxLength < candidate.length then false
  else if !(candidate.data.all superscriptBodyChar) then false
  else if pageMedianHeight ≤ 0 ∨ line.height ≤ 0 then false
  else decide (line.height < pageMedianHeight * superscriptHeightFrac)

/-- The per-page median fragment height, with the `?? 0` default (only
positive medians are stored in the source's map). -/
def pageMedianHeight (lines : List PageLine) (page : ℕ) : ℚ :=
  let heights := (lines.filter fun l => decide (l.page = page) && decide (0 < l.height)).map
    fun l => l.height
  let m := median heights
  if 0 < m then m else 0

def getAt? (l : List PageLine) (j : ℤ) : Option PageLine :=
  if j < 0 then none else l.get? j.toNat

/-- The eligibility test and score of one neighbour index inside the
`for (const neighborIndex of neighbors)` loop: `none` when the source
`continue`s, `some score` otherwise. -/
def neighborScore (mutableLines : List PageLine) (skip : List ℕ) (pageMedianH : ℚ)
    (line : PageLine) (j : ℤ) : Option ℚ :=
  match getAt? mutableLines j with
  | none => none
  | some neighbor =>
    if neighbor.page ≠ line.page ∨ j.toNat ∈ skip then none
    else if isSuperscriptCandidate neighbor pageMedianH then none
    else
      let yDelta := |neighbor.y - line.y|
      if superscriptMaxYDelta < yDelta then none
      else some (yDelta + |line.x - neighbor.x| / 140)

/-- `bestIndex`/`bestScore` accumulation: `none` plays the role of the
initial `bestScore = +∞`. -/
def pickFold : Option (ℤ × ℚ) → List (ℤ × ℚ) → Option (ℤ × ℚ)
  | acc, [] => acc
  | acc, p :: rest =>
    match acc with
    | none => pickFold (some p) rest
    | some b => if p.2 < b.2 then pickFold (some p) rest else pickFold (some b) rest

def neighborOffsets (i : ℕ) : List ℤ :=
  [(i : ℤ) - 2, (i : ℤ) - 1, (i : ℤ) + 1, (i : ℤ) + 2]

def eligibleNeighborScores (mutableLines : List PageLine) (skip : List ℕ)
    (pageMedianH : ℚ) (line : PageLine) (i : ℕ) : List (ℤ × ℚ) :=
  (neighborOffsets i).filterMap fun j =>
    (neighborScore mutableLines skip pageMedianH line j).map fun s => (j, s)

def pickBestNeighbor (mutableLines : List PageLine) (skip : List ℕ)
    (pageMedianH : ℚ) (line : PageLine) (i : ℕ) : Option ℤ :=
  (pickFold none (eligibleNeighborScores mutableLines skip pageMedianH line i)).map
    fun p => p.1

/-- One iteration of the candidate loop of `attachSuperscripts`. -/
def attachStep (pageMedianOf : ℕ → ℚ) (st : List PageLine × List ℕ) (i : ℕ) :
    List PageLine × List ℕ :=
  match st.1.get? i with
  | none => st
  | some line =>
    let medianH := pageMedianOf line.page
    if !isSuperscriptCandidate line medianH then st
    else
      match pickBestNeighbor st.1 st.2 medianH line i with
      | none => st
      | some j =>
        match st.1.get? j.toNat with
        | none => st
        | some best =>
          (st.1.set j.toNat { best with text := best.text ++ toSuperscript line.text },
           st.2 ++ [i])

def attachSuperscripts (lines : List PageLine) : List PageLine :=
  let pageMedianOf := pageMedianHeight lines
  let final := (List.range lines.length).foldl (attachStep pageMedianOf) (lines, [])
  (final.1.enum.filter fun p => !(final.2.contains p.1)).map fun p => p.2

/-! ### Clause parser (`parseSectionClauses` and helpers) -/

inductive Side where
  | base
  | compared
deriving DecidableEq, Repr

def sideKey : Side → String
  | .base => "base"
  | .compared => "compared"

inductive ExtractionFlag where
  | duplicate
  | malformed
  | unextractable
  | unmatched
deriving DecidableEq, Repr

def flagKey : ExtractionFlag → String
  | .duplicate => "duplicate"
  | .malformed => "malformed"
  | .unextractable => "unextractable"
  | .unmatched => "unmatched"

structure ParagraphRecord where
  key : String
  originalLabel : String
  text : String
  pageStart : ℕ
  pageEnd : ℕ
  extractionFlags : List ExtractionFlag
deriving DecidableEq, Repr

/-- `ClauseNode`.  `synthetic?` defaults to absent = `false`;
`sourceLineCount?` is set by every constructor in the source, so it is
embedded as a plain natural number. -/
structure ClauseNode where
  id : String
  rawLabel : String
  parentId : Option String := none
  level : ℕ
  textPreserved : String
  pageStart : ℕ
  pageEnd : ℕ
  anchorPage : ℕ
  anchorY : ℚ
  synthetic : Bool := false
  sourceLineCount : ℕ
deriving DecidableEq, Repr

structure SectionCoverage where
  totalLines : ℕ
  mappedLines : ℕ
  unmatchedLines : ℕ
  percent : ℚ
deriving DecidableEq, Repr

/-- `normalizeParagraphKey` (`src/lib/utils/paragraphKey.ts`): trim, strip
all whitespace, strip one trailing `.`, lowercase. -/
def normalizeParagraphKey (value : String) : String :=
  let noWs := (strTrim value).data.filter fun c => !jsWsChar c
  let stripped := if noWs.getLast? = some '.' then noWs.dropLast else noWs
  strLower (String.mk stripped)

def isRootStartLine (text : String) : Bool :=
  (rootClauseMatch text).isSome || (rootLabelOnlyMatch (strTrim text)).isSome

def isMarkerStartLine (text : String) : Bool :=
  (markerClauseMatch text).isSome || (markerLabelOnlyMatch (strTrim text)).isSome

def isClauseStartLine (text : String) : Bool :=
  isRootStartLine text || isMarkerStartLine text

/-- `INDENT_SPACE_STEP = 8`. -/
def indentSpaceStep : ℚ := 8

/-- `calculateIndentPrefix` of the source. -/
def calculateIndentPad (lineX baseX : ℚ) : String :=
  let delta := max 0 (lineX - baseX)
  let spaces := max 0 (jsRound (delta / indentSpaceStep))
  spacesStr (min 24 spaces.toNat)

def pageDeltas (lines : List PageLine) : List (ℕ × ℚ) :=
  (lines.zip lines.tail).filterMap fun p =>
    if p.1.page = p.2.page ∧ 0 < p.1.y - p.2.y ∧ p.1.y - p.2.y ≤ 60 then
      some (p.2.page, p.1.y - p.2.y)
    else none

def buildPageSpacingMap (lines : List PageLine) (page : ℕ) : Option ℚ :=
  let values := ((pageDeltas lines).filter fun p => decide (p.1 = page)).map fun p => p.2
  if values.isEmpty then none
  else
    let value := median values
    if 0 < value then some value else none

inductive ContinuationSep where
  | space
  | newline
deriving DecidableEq, Repr

/-- `PARAGRAPH_GAP_MULTIPLIER = 1.55`. -/
def paragraphGapMultiplier : ℚ := 31/20

def chooseContinuationSeparator (previousLine nextLine : PageLine)
    (_clauseBaseX : ℚ) (spacingMap : ℕ → Option ℚ) : ContinuationSep :=
  if previousLine.page ≠ nextLine.page then .newline
  else
    let previousText := strTrim previousLine.text
    if (rootLabelOnlyMatch previousText).isSome ∨ (markerLabelOnlyMatch previousText).isSome then
      .newline
    else if (rootClauseMatch previousText).isSome ∨ (markerClauseMatch previousText).isSome then
      .space
    else
      let deltaY := previousLine.y - nextLine.y
      let spacing := (spacingMap nextLine.page).getD 11
      if spacing * paragraphGapMultiplier < deltaY then .newline
      else if indentSpaceStep * (3/2) ≤ |nextLine.x - previousLine.x| then .newline
      else .space

/-- The class `[-‐‑‒–—]` tested on the current clause text tail before a
soft-hyphen join. -/
def hyphenEndChar (c : Char) : Bool :=
  c == '-' || c == '‐' || c == '‑' || c == '‒' || c == '–' || c == '—'

def appendLineWithStructure (clause : ClauseNode) (previousLine nextLine : PageLine)
    (clauseBaseX : ℚ) (spacingMap : ℕ → Option ℚ) : ClauseNode :=
  let separator := chooseContinuationSeparator previousLine nextLine clauseBaseX spacingMap
  let newText :=
    match separator with
    | .newline =>
      clause.textPreserved ++ "\n" ++ calculateIndentPad nextLine.x clauseBaseX ++ nextLine.text
    | .space =>
      if checkLast clause.textPreserved hyphenEndChar then clause.textPreserved ++ nextLine.text
      else clause.textPreserved ++ " " ++ nextLine.text
  { clause with
    textPreserved := newText
    pageEnd := nextLine.page
    sourceLineCount := clause.sourceLineCount + 1 }

def finalizeClause (clauses : List ClauseNode) : Option ClauseNode → List ClauseNode
  | none => clauses
  | some clause => clauses ++ [{ clause with textPreserved := strTrimEnd clause.textPreserved }]

def toIssueRecord (side : Side) (key text : String) (page : ℕ)
    (flag : ExtractionFlag) : ParagraphRecord :=
  { key := sideKey side ++ "-" ++ key ++ "-" ++ flagKey flag
    originalLabel := key
    text := text
    pageStart := page
    pageEnd := page
    extractionFlags := [flag] }

/-- Parser state.  The source's `lineMapped` boolean array marks each
consumed line index exactly once, so its true-count is carried as the
running counter `mapped`. -/
structure ParseState where
  clauses : List ClauseNode
  issues : List ParagraphRecord
  mapped : ℕ
  currentClause : Option ClauseNode
  currentClauseBaseX : ℚ
  currentClauseLastLine : Option PageLine
  currentRootId : Option String
  currentLevel2Id : Option String
  currentLevel3Id : Option String
  unmatchedLines : List PageLine
  unmatchedIndex : ℕ
deriving Repr

def initialParseState : ParseState :=
  { clauses := [], issues := [], mapped := 0, currentClause := none,
    currentClauseBaseX := 0, currentClauseLastLine := none,
    currentRootId := none, currentLevel2Id := none, currentLevel3Id := none,
    unmatchedLines := [], unmatchedIndex := 0 }

def flushUnmatched (sectionHeader : String) (side : Side)
    (spacingMap : ℕ → Option ℚ) (st : ParseState) : ParseState :=
  match st.unmatchedLines with
  | [] => st
  | first :: restLines =>
    let unmatchedIndex := st.unmatchedIndex + 1
    let baseX := first.x
    let start : ClauseNode :=
      { id := "__unmatched_" ++ toString unmatchedIndex
        rawLabel := "Unmatched " ++ toString unmatchedIndex
        level := 1
        textPreserved := first.text
        pageStart := first.page
        pageEnd := first.page
        anchorPage := first.page
        anchorY := first.y
        synthetic := true
        sourceLineCount := 1 }
    let final := (restLines.foldl
      (fun acc line => (appendLineWithStructure acc.1 acc.2 line baseX spacingMap, line))
      (start, first)).1
    { st with
      clauses := finalizeClause st.clauses (some final)
      issues := st.issues ++ [toIssueRecord side
        (sectionHeader ++ "-unmatched-" ++ toString unmatchedIndex)
        (strTrimEnd final.textPreserved) final.pageStart .unmatched]
      unmatchedLines := []
      unmatchedIndex := unmatchedIndex }

def finalizeCurrentClause (st : ParseState) : ParseState :=
  { st with
    clauses := finalizeClause st.clauses st.currentClause
    currentClause := none
    currentClauseLastLine := none }

def startClauseState (sectionHeader : String) (side : Side) (spacingMap : ℕ → Option ℚ)
    (st : ParseState) (clause : ClauseNode) (line : PageLine) : ParseState :=
  let st1 := flushUnmatched sectionHeader side spacingMap (finalizeCurrentClause st)
  { st1 with
    currentClause := some clause
    currentClauseBaseX := line.x
    currentClauseLastLine := some line
    mapped := st1.mapped + 1 }

def appendToCurrentClause (spacingMap : ℕ → Option ℚ) (st : ParseState)
    (line : PageLine) : ParseState :=
  match st.currentClause, st.currentClauseLastLine with
  | some clause, some lastLine =>
    { st with
      currentClause :=
        some (appendLineWithStructure clause lastLine line st.currentClauseBaseX spacingMap)
      currentClauseLastLine := some line
      mapped := st.mapped + 1 }
  | _, _ => st

/-- `/^[ivxlcdm]+$/i`. -/
def isRomanToken (s : String) : Bool :=
  !s.isEmpty && s.data.all fun c =>
    let l := c.toLower
    l == 'i' || l == 'v' || l == 'x' || l == 'l' || l == 'c' || l == 'd' || l == 'm'

/-- `/^\d+$/`. -/
def isNumericToken (s : String) : Bool :=
  !s.isEmpty && s.data.all isAsciiDigit

/-- Level assignment for a marker token under an active root clause. -/
def markerLevelParent (level2 level3 : Option String) (rootId : String)
    (rawToken : String) : ℕ × String :=
  match level3, isNumericToken rawToken with
  | some l3, true => (4, l3)
  | _, _ =>
    match level2, isRomanToken rawToken with
    | some l2, true => (3, l2)
    | _, _ => (2, rootId)

/-- One iteration of the `for (let index = 0; ...)` loop of
`parseSectionClauses`, processing `line`.  `next?` is the following
section line, if any; the returned flag is `true` when the branch also
consumed that line (`index += 1` in the source's label-only branches). -/
def parseStep (sectionHeader : String) (side : Side) (spacingMap : ℕ → Option ℚ)
    (st : ParseState) (line : PageLine) (next? : Option PageLine) :
    ParseState × Bool :=
  let trimmedText := strTrim line.text
  if trimmedText.isEmpty then (st, false)
  else
    match rootClauseMatch trimmedText with
    | some rootLabelRaw =>
      let rootLabel := strTrim rootLabelRaw
      let rootId := normalizeParagraphKey rootLabel
      if rootId.isEmpty then
        ({ st with unmatchedLines := st.unmatchedLines ++ [line] }, false)
      else
        let st1 := startClauseState sectionHeader side spacingMap st
          { id := rootId, rawLabel := rootLabel, level := 1,
            textPreserved := line.text, pageStart := line.page, pageEnd := line.page,
            anchorPage := line.page, anchorY := line.y, sourceLineCount := 1 } line
        ({ st1 with currentRootId := some rootId, currentLevel2Id := none,
                    currentLevel3Id := none }, false)
    | none =>
    match rootLabelOnlyMatch trimmedText with
    | some rootLabelRaw =>
      let rootLabel := strTrim rootLabelRaw
      let rootId := normalizeParagraphKey rootLabel
      if rootId.isEmpty then
        ({ st with unmatchedLines := st.unmatchedLines ++ [line] }, false)
      else
        let st1 := startClauseState sectionHeader side spacingMap st
          { id := rootId, rawLabel := rootLabel, level := 1,
            textPreserved := rootLabel, pageStart := line.page, pageEnd := line.page,
            anchorPage := line.page, anchorY := line.y, sourceLineCount := 1 } line
        let st2 := { st1 with currentRootId := some rootId, currentLevel2Id := none,
                              currentLevel3Id := none }
        match next? with
        | some next =>
          if !isClauseStartLine (strTrim next.text) then
            (appendToCurrentClause spacingMap st2 next, true)
          else (st2, false)
        | none => (st2, false)
    | none =>
    match st.currentRootId, markerClauseMatch trimmedText with
    | some rootId, some token =>
      let rawToken := strTrim token
      let normalizedToken := strLower rawToken
      let lp := markerLevelParent st.currentLevel2Id st.currentLevel3Id rootId rawToken
      let id := lp.2 ++ "(" ++ normalizedToken ++ ")"
      let st1 := startClauseState sectionHeader side spacingMap st
        { id := id, rawLabel := "(" ++ rawToken ++ ")", parentId := some lp.2,
          level := lp.1, textPreserved := line.text, pageStart := line.page,
          pageEnd := line.page, anchorPage := line.page, anchorY := line.y,
          sourceLineCount := 1 } line
      let st2 :=
        if lp.1 = 2 then { st1 with currentLevel2Id := some id, currentLevel3Id := none }
        else if lp.1 = 3 then { st1 with currentLevel3Id := some id }
        else st1
      (st2, false)
    | _, _ =>
    match st.currentRootId, markerLabelOnlyMatch trimmedText with
    | some rootId, some token =>
      let rawToken := strTrim token
      let normalizedToken := strLower rawToken
      let lp := markerLevelParent st.currentLevel2Id st.currentLevel3Id rootId rawToken
      let id := lp.2 ++ "(" ++ normalizedToken ++ ")"
      let st1 := startClauseState sectionHeader side spacingMap st
        { id := id, rawLabel := "(" ++ rawToken ++ ")", parentId := some lp.2,
          level := lp.1, textPreserved := "(" ++ rawToken ++ ")", pageStart := line.page,
          pageEnd := line.page, anchorPage := line.page, anchorY := line.y,
          sourceLineCount := 1 } line
      let levelUpd := fun (s : ParseState) =>
        if lp.1 = 2 then { s with currentLevel2Id := some id, currentLevel3Id := none }
        else if lp.1 = 3 then { s with currentLevel3Id := some id }
        else s
      match next? with
      | some next =>
        if !isClauseStartLine (strTrim next.text) then
          (levelUpd (appendToCurrentClause spacingMap st1 next), true)
        else (levelUpd st1, false)
      | none => (levelUpd st1, false)
    | _, _ =>
      if st.currentClause.isSome then
        (appendToCurrentClause spacingMap st line, false)
      else
        ({ st with unmatchedLines := st.unmatchedLines ++ [line] }, false)

/-- The loop of `parseSectionClauses`, iterating `parseStep`.  Each step
consumes at least one line, so `length` fuel makes the recursion
structural. -/
def parseGoF (sectionHeader : String) (side : Side) (spacingMap : ℕ → Option ℚ) :
    ℕ → ParseState → List PageLine → ParseState
  | _, st, [] => st
  | 0, st, _ :: _ => st
  | fuel+1, st, line :: rest =>
    let r := parseStep sectionHeader side spacingMap st line rest.head?
    parseGoF sectionHeader side spacingMap fuel r.1 (if r.2 then rest.tail else rest)

def parseGo (sectionHeader : String) (side : Side) (spacingMap : ℕ → Option ℚ)
    (st : ParseState) (lines : List PageLine) : ParseState :=
  parseGoF sectionHeader side spacingMap lines.length st lines

structure ParsedSectionResult where
  clauses : List ClauseNode
  coverage : SectionCoverage
  issues : List ParagraphRecord
deriving Repr

/-- `parseSectionClauses`.  `Math.max(0, total − mapped)` is truncated
natural subtraction. -/
def parseSectionClauses (sectionHeader : String) (sectionLines : List PageLine)
    (side : Side) : ParsedSectionResult :=
  let spacingMap := buildPageSpacingMap sectionLines
  let stF := parseGo sectionHeader side spacingMap initialParseState sectionLines
  let stDone := flushUnmatched sectionHeader side spacingMap (finalizeCurrentClause stF)
  let mappedLines := stDone.mapped
  let totalLines := sectionLines.length
  { clauses := stDone.clauses
    coverage :=
      { totalLines := totalLines
        mappedLines := mappedLines
        unmatchedLines := totalLines - mappedLines
        percent :=
          if totalLines = 0 then 100
          else ((jsRound ((mappedLines : ℚ) / (totalLines : ℚ) * 1000) : ℚ) / 10) }
    issues := stDone.issues }

/-! ### Section extraction (`extractSections` and helpers) -/

structure ExtractedSection where
  header : String
  normalizedHeader : String
  clauses : List ClauseNode
  coverage : SectionCoverage
  startParagraph : Option String := none
  endParagraph : Option String := none
deriving DecidableEq, Repr

structure ExtractedDocument where
  sections : List ExtractedSection
  issues : List ParagraphRecord
deriving DecidableEq, Repr

def isLikelySectionStart (lines : List PageLine) (index : ℕ) : Bool :=
  (List.range 20).any fun o =>
    match lines.get? (index + o + 1) with
    | some line =>
      (rootClauseMatch line.text).isSome || (rootLabelOnlyMatch (strTrim line.text)).isSome
    | none => false

def insertBoundary (b : String × ℕ) : List (String × ℕ) → List (String × ℕ)
  | [] => [b]
  | c :: rest => if b.2 < c.2 then b :: c :: rest else c :: insertBoundary b rest

def sortBoundaries (l : List (String × ℕ)) : List (String × ℕ) :=
  l.foldl (fun acc b => insertBoundary b acc) []

/-- `findSectionBoundaries`: first qualifying line per canonical header,
emitted sorted by line index. -/
def findSectionBoundaries (lines : List PageLine) : List (String × ℕ) :=
  let hits := lines.enum.filterMap fun p =>
    match headerLookup (normalizeHeader p.2.text) with
    | some header => if isLikelySectionStart lines p.1 then some (header, p.1) else none
    | none => none
  let firsts := (dedupFirst (hits.map Prod.fst)).filterMap fun h =>
    (hits.find? fun p => p.1 = h).map fun p => (h, p.2)
  sortBoundaries firsts

/-- `/^appendix(?:es)?\b/i` (a zero-width fallback before `es` can never
restore the boundary, so only the greedy branch is kept). -/
def appendixHeadTest (l : List Char) : Bool :=
  match l.map Char.toLower with
  | 'a' :: 'p' :: 'p' :: 'e' :: 'n' :: 'd' :: 'i' :: 'x' :: rest =>
    match rest with
    | 'e' :: 's' :: rest2 => boundaryOk rest2
    | _ => boundaryOk rest
  | _ => false

/-- `MAX_APPENDIX_HEADER_WORDS = 10`, `MAX_APPENDIX_HEADER_LENGTH = 90`. -/
def isAppendixHeadingLine (lineText : String) : Bool :=
  let normalized := collapseSpaces lineText
  if normalized.isEmpty then false
  else if !appendixHeadTest normalized.data then false
  else if 90 < normalized.length then false
  else if 10 < countTokenRuns false normalized.data then false
  else if checkLast normalized (fun c => c == '.' || c == '!' || c == '?') then false
  else true

def countRootClausesBefore (lines : List PageLine) (endExclusive : ℕ) : ℕ :=
  ((lines.take endExclusive).filter fun line =>
    let text := strTrim line.text
    (rootClauseMatch text).isSome || (rootLabelOnlyMatch text).isSome).length

/-- `MIN_ROOT_CLAUSES_BEFORE_APPENDIX_CUTOFF = 3`; the `-1` sentinel of
the source becomes `none`. -/
def findAppendixStartIndex (lines : List PageLine)
    (boundaries : List (String × ℕ)) : Option ℕ :=
  let lastBoundaryIndex : Option ℕ := (boundaries.getLast?).map Prod.snd
  (lines.enum.find? fun p =>
    if !isAppendixHeadingLine p.2.text then false
    else
      match lastBoundaryIndex with
      | some lb => decide (lb < p.1)
      | none => decide (3 ≤ countRootClausesBefore lines p.1)).map Prod.fst

def sectionFromParsed (header : String) (parsed : ParsedSectionResult) : ExtractedSection :=
  { header := header
    normalizedHeader := normalizeHeader header
    clauses := parsed.clauses
    coverage := parsed.coverage
    startParagraph :=
      (parsed.clauses.find? fun c => decide (c.level = 1) && !c.synthetic).map fun c => c.id
    endParagraph :=
      (parsed.clauses.reverse.find? fun c => decide (c.level = 1) && !c.synthetic).map
        fun c => c.id }

def extractSections (lines : List PageLine) (side : Side) : ExtractedDocument :=
  let boundaries := findSectionBoundaries lines
  let effectiveLines :=
    match findAppendixStartIndex lines boundaries with
    | some i => lines.take i
    | none => lines
  let effectiveBoundaries := boundaries.filter fun b => decide (b.2 < effectiveLines.length)
  if effectiveBoundaries.isEmpty then
    let parsed := parseSectionClauses "Unsectioned" effectiveLines side
    { sections := [sectionFromParsed "Unsectioned" parsed], issues := parsed.issues }
  else
    let withNext := effectiveBoundaries.zip
      ((effectiveBoundaries.tail.map fun b => some b.2) ++ [none])
    let pieces := withNext.map fun p =>
      let endIdx := match p.2 with | some n => n | none => effectiveLines.length
      let sectionLines := (effectiveLines.take endIdx).drop (p.1.2 + 1)
      (p.1.1, parseSectionClauses p.1.1 sectionLines side)
    { sections := pieces.map fun p => sectionFromParsed p.1 p.2
      issues := pieces.flatMap fun p => p.2.issues }

def clausesWithId (clauses : List ClauseNode) (id : String) : List ClauseNode :=
  clauses.filter fun clause => decide (clause.id = id)

/-- `detectDuplicateClauseIssues`: grouping by id in first-occurrence
order (the iteration order of the source's `Map`). -/
def detectDuplicateClauseIssues (side : Side) (sec : ExtractedSection) :
    List ParagraphRecord :=
  (dedupFirst (sec.clauses.map fun c => c.id)).flatMap fun clauseId =>
    let group := clausesWithId sec.clauses clauseId
    if group.length < 2 then []
    else group.map fun clause =>
      toIssueRecord side (sec.header ++ "-" ++ clauseId)
        clause.textPreserved clause.pageStart .duplicate

/-- `extractDocumentStructure`, starting from assembled `PageLine`s (the
PDF byte decoding of `extractLines` is the external provider). -/
def extractDocumentStructure (lines : List PageLine) (side : Side) : ExtractedDocument :=
  let extracted := extractSections (attachSuperscripts (filterFooterLines lines)) side
  { sections := extracted.sections
    issues := extracted.issues ++ extracted.sections.flatMap (detectDuplicateClauseIssues side) }

/-! ### Comparison building (`src/lib/compare/buildComparison.ts`) -/

inductive RowStatus where
  | unchanged
  | changed
  | added
  | removed
  | ambiguous
deriving DecidableEq, Repr

inductive SectionMatchStatus where
  | matched
  | missing_in_base
  | missing_in_compared
deriving DecidableEq, Repr

structure ComparisonRow where
  key : String
  labelBase : Option String := none
  labelCompared : Option String := none
  displayLabel : String
  inBase : Bool
  inCompared : Bool
  base : Option ClauseNode := none
  compared : Option ClauseNode := none
  status : RowStatus
  diffWord : List DiffToken
  diffSentence : List DiffToken
  diffParagraph : List DiffToken
deriving DecidableEq, Repr

/-- The three change-producing functions of the external npm `diff`
library, abstracted. -/
structure DiffLib where
  wordChanges : String → String → List Change
  sentenceChanges : String → String → List Change
  trimmedLineChanges : String → String → List Change

def isAppendixSection (header : String) : Bool :=
  seqStartsWith "appendix".data (normalizeHeader header).data

/-- `groupClausesById(...).get(id)` — grouping preserves document order,
so the group of an id is the in-order filter. -/
def buildClauseSequence (baseClauses comparedClauses : List ClauseNode) : List String :=
  dedupFirst ((baseClauses.map fun c => c.id) ++ (comparedClauses.map fun c => c.id))

def buildDisplayLabel : Option String → Option String → String
  | some lb, some lc => if lb = lc then lb else lb ++ " | " ++ lc
  | some lb, none => lb
  | none, some lc => lc
  | none, none => "Unknown"

def ambiguousExplanation : String :=
  "Unable to compare automatically due to duplicate clause identifiers in one or both sections."

def buildAmbiguousRow (key : String) (baseGroup comparedGroup : List ClauseNode) :
    ComparisonRow :=
  let base := baseGroup.head?
  let compared := comparedGroup.head?
  let labelBase := base.map fun c => c.rawLabel
  let labelCompared := compared.map fun c => c.rawLabel
  { key := key
    labelBase := labelBase
    labelCompared := labelCompared
    displayLabel := buildDisplayLabel labelBase labelCompared
    inBase := base.isSome
    inCompared := compared.isSome
    base := base
    compared := compared
    status := RowStatus.ambiguous
    diffWord := [{ value := ambiguousExplanation, kind := TokenKind.equal }]
    diffSentence := [{ value := ambiguousExplanation, kind := TokenKind.equal }]
    diffParagraph := [{ value := ambiguousExplanation, kind := TokenKind.equal }] }

/-- The body of the `sequence.map(key => ...)` of `buildRowsForSection`. -/
def rowForKey (lib : DiffLib) (baseClauses comparedClauses : List ClauseNode)
    (key : String) : ComparisonRow :=
  let baseGroup := clausesWithId baseClauses key
  let comparedGroup := clausesWithId comparedClauses key
  if 1 < baseGroup.length ∨ 1 < comparedGroup.length then
    buildAmbiguousRow key baseGroup comparedGroup
  else
    match baseGroup.head?, comparedGroup.head? with
    | some base, some compared =>
      { key := key
        labelBase := some base.rawLabel
        labelCompared := some compared.rawLabel
        displayLabel := buildDisplayLabel (some base.rawLabel) (some compared.rawLabel)
        inBase := true
        inCompared := true
        base := some base
        compared := some compared
        status :=
          if strTrim base.textPreserved = strTrim compared.textPreserved then
            RowStatus.unchanged
          else RowStatus.changed
        diffWord := buildWordDiff lib.wordChanges base.textPreserved compared.textPreserved
        diffSentence :=
          buildSentenceDiff lib.sentenceChanges base.textPreserved compared.textPreserved
        diffParagraph :=
          buildParagraphDiff lib.trimmedLineChanges base.textPreserved compared.textPreserved }
    | some base, none =>
      { key := key
        labelBase := some base.rawLabel
        labelCompared := none
        displayLabel := buildDisplayLabel (some base.rawLabel) none
        inBase := true
        inCompared := false
        base := some base
        compared := none
        status := RowStatus.removed
        diffWord := [{ value := base.textPreserved, kind := TokenKind.removed }]
        diffSentence := [{ value := base.textPreserved, kind := TokenKind.removed }]
        diffParagraph := [{ value := base.textPreserved, kind := TokenKind.removed }] }
    | none, comparedOpt =>
      { key := key
        labelBase := none
        labelCompared := comparedOpt.map fun c => c.rawLabel
        displayLabel := buildDisplayLabel none (comparedOpt.map fun c => c.rawLabel)
        inBase := false
        inCompared := true
        base := none
        compared := comparedOpt
        status := RowStatus.added
        diffWord :=
          [{ value := (comparedOpt.map fun c => c.textPreserved).getD "",
             kind := TokenKind.added }]
        diffSentence :=
          [{ value := (comparedOpt.map fun c => c.textPreserved).getD "",
             kind := TokenKind.added }]
        diffParagraph :=
          [{ value := (comparedOpt.map fun c => c.textPreserved).getD "",
             kind := TokenKind.added }] }

def buildRowsForSection (lib : DiffLib) (baseClauses comparedClauses : List ClauseNode) :
    List ComparisonRow :=
  (buildClauseSequence baseClauses comparedClauses).map
    (rowForKey lib baseClauses comparedClauses)

def buildSectionText (clauses : List ClauseNode) : String :=
  strTrim (String.intercalate "\n\n" (clauses.map fun c => c.textPreserved))

def emptyCoverage : SectionCoverage :=
  { totalLines := 0, mappedLines := 0, unmatchedLines := 0, percent := 100 }

def mergeCoverage (base compared : Option SectionCoverage) : SectionCoverage :=
  let totalLines := (base.map fun c => c.totalLines).getD 0 +
    (compared.map fun c => c.totalLines).getD 0
  let mappedLines := (base.map fun c => c.mappedLines).getD 0 +
    (compared.map fun c => c.mappedLines).getD 0
  let unmatchedLines := (base.map fun c => c.unmatchedLines).getD 0 +
    (compared.map fun c => c.unmatchedLines).getD 0
  if totalLines = 0 then emptyCoverage
  else
    { totalLines := totalLines
      mappedLines := mappedLines
      unmatchedLines := unmatchedLines
      percent := (jsRound ((mappedLines : ℚ) / (totalLines : ℚ) * 1000) : ℚ) / 10 }

def buildHeaderSequence (baseHeaders comparedHeaders : List String) : List String :=
  dedupFirst (baseHeaders ++ comparedHeaders)

structure PageRange where
  pageStart : ℕ
  pageEnd : ℕ
deriving DecidableEq, Repr

/-- `buildPageRange`: min/max over the clause page ranges (the source's
`±Infinity` initial fold values reduce to a fold from the first clause;
the `Number.isFinite` guard can then never fire). -/
def buildPageRange (clauses : List ClauseNode) : Option PageRange :=
  match clauses with
  | [] => none
  | c :: rest =>
    some (rest.foldl
      (fun acc cl =>
        { pageStart := min acc.pageStart cl.pageStart
          pageEnd := max acc.pageEnd cl.pageEnd })
      { pageStart := c.pageStart, pageEnd := c.pageEnd })

/-- `compactSnippet` with its default `limit = 180` (no caller passes a
different limit). -/
def compactSnippet (value : String) : String :=
  let compact := collapseSpaces value
  if compact.length ≤ 180 then compact
  else String.mk (compact.data.take 179) ++ "…"

def collectDiffSnippet (tokens : List DiffToken) (kind : TokenKind) : Option String :=
  let text := String.intercalate " "
    ((tokens.filter fun t => decide (t.kind = kind)).map fun t => t.value)
  let snippet := compactSnippet text
  if snippet.isEmpty then none else some snippet

structure AnchorPoint where
  page : ℕ
  y : ℚ
deriving DecidableEq, Repr

def rowAt? (rows : List ComparisonRow) (j : ℤ) : Option ComparisonRow :=
  if j < 0 then none else rows.get? j.toNat

def resolveComparedAnchor (rows : List ComparisonRow) (index : ℕ)
    (fallbackPageRange : Option PageRange) : Option AnchorPoint :=
  match (rows.get? index).bind fun r => r.compared with
  | some c => some { page := c.anchorPage, y := c.anchorY }
  | none =>
    match (List.range' 1 (rows.length - 1)).findSome? (fun distance =>
      match (rowAt? rows ((index : ℤ) - (distance : ℤ))).bind fun r => r.compared with
      | some c => some ({ page := c.anchorPage, y := c.anchorY } : AnchorPoint)
      | none =>
        match (rowAt? rows ((index : ℤ) + (distance : ℤ))).bind fun r => r.compared with
        | some c => some ({ page := c.anchorPage, y := c.anchorY } : AnchorPoint)
        | none => none) with
    | some a => some a
    | none =>
      match fallbackPageRange with
      | some range => some { page := range.pageStart, y := 780 }
      | none => none

structure SectionAnchor where
  sectionHeader : String
  anchorId : String
  label : String
  base : Option AnchorPoint := none
  compared : Option AnchorPoint := none
  status : RowStatus
  removedSnippet : Option String := none
  addedSnippet : Option String := none
deriving DecidableEq, Repr

def buildSectionAnchors (sectionHeader : String) (rows : List ComparisonRow)
    (comparedRange : Option PageRange) : List SectionAnchor :=
  rows.enum.map fun p =>
    let index := p.1
    let row := p.2
    let removedSnippet : Option String :=
      if row.status = RowStatus.removed ∨ row.status = RowStatus.changed then
        some ((collectDiffSnippet row.diffWord TokenKind.removed).getD
          (compactSnippet ((row.base.map fun c => c.textPreserved).getD "")))
      else none
    let addedSnippet : Option String :=
      if row.status = RowStatus.added ∨ row.status = RowStatus.changed then
        some ((collectDiffSnippet row.diffWord TokenKind.added).getD
          (compactSnippet ((row.compared.map fun c => c.textPreserved).getD "")))
      else none
    let comparedAnchor : Option AnchorPoint :=
      if row.inCompared then
        row.compared.map fun c => { page := c.anchorPage, y := c.anchorY }
      else resolveComparedAnchor rows index comparedRange
    { sectionHeader := sectionHeader
      anchorId := sectionHeader ++ "::" ++ row.key
      label := row.displayLabel
      base := row.base.map fun c => { page := c.anchorPage, y := c.anchorY }
      compared := comparedAnchor
      status := row.status
      removedSnippet := removedSnippet
      addedSnippet := addedSnippet }

structure SectionComparison where
  header : String
  status : SectionMatchStatus
  baseClauses : List ClauseNode
  comparedClauses : List ClauseNode
  baseSectionTextPreserved : String
  comparedSectionTextPreserved : String
  sectionDiffWord : List DiffToken
  sectionDiffSentence : List DiffToken
  sectionDiffParagraph : List DiffToken
  rows : List ComparisonRow
  coverage : SectionCoverage
  startParagraph : Option String := none
  endParagraph : Option String := none
deriving DecidableEq, Repr

structure SectionPageMap where
  header : String
  base : Option PageRange := none
  compared : Option PageRange := none
deriving DecidableEq, Repr

structure ComparisonOutcome where
  sections : List SectionComparison
  sectionPageMap : List SectionPageMap
  sectionAnchors : List SectionAnchor
  rows : List ComparisonRow
  selectedSectionDefault : Option String
deriving DecidableEq, Repr

/-- `new Map(sections.map(s => [s.header, s])).get(header)` — a JavaScript
`Map` built from entries keeps the last entry per key. -/
def sectionByHeader (sections : List ExtractedSection) (header : String) :
    Option ExtractedSection :=
  sections.reverse.find? fun s => decide (s.header = header)

def buildOneSection (lib : DiffLib) (baseSections comparedSections : List ExtractedSection)
    (header : String) : SectionComparison :=
  let base := sectionByHeader baseSections header
  let compared := sectionByHeader comparedSections header
  let status : SectionMatchStatus :=
    match base, compared with
    | some _, some _ => SectionMatchStatus.matched
    | some _, none => SectionMatchStatus.missing_in_compared
    | none, _ => SectionMatchStatus.missing_in_base
  let baseClauses := (base.map fun s => s.clauses).getD []
  let comparedClauses := (compared.map fun s => s.clauses).getD []
  let baseText := buildSectionText baseClauses
  let comparedText := buildSectionText comparedClauses
  { header := header
    status := status
    baseClauses := baseClauses
    comparedClauses := comparedClauses
    baseSectionTextPreserved := baseText
    comparedSectionTextPreserved := comparedText
    sectionDiffWord := buildWordDiff lib.wordChanges baseText comparedText
    sectionDiffSentence := buildSentenceDiff lib.sentenceChanges baseText comparedText
    sectionDiffParagraph := buildParagraphDiff lib.trimmedLineChanges baseText comparedText
    rows := buildRowsForSection lib baseClauses comparedClauses
    coverage := mergeCoverage (base.map fun s => s.coverage) (compared.map fun s => s.coverage)
    startParagraph := (base.bind fun s => s.startParagraph) <|>
      (compared.bind fun s => s.startParagraph)
    endParagraph := (base.bind fun s => s.endParagraph) <|>
      (compared.bind fun s => s.endParagraph) }

def buildSectionComparisons (lib : DiffLib)
    (baseDocument comparedDocument : ExtractedDocument) : ComparisonOutcome :=
  let baseSections := baseDocument.sections.filter fun s => !isAppendixSection s.header
  let comparedSections := comparedDocument.sections.filter fun s => !isAppendixSection s.header
  let headers := buildHeaderSequence (baseSections.map fun s => s.header)
    (comparedSections.map fun s => s.header)
  let builtSections := headers.map (buildOneSection lib baseSections comparedSections)
  let sections := builtSections.filter fun s =>
    decide (0 < s.baseClauses.length) || decide (0 < s.comparedClauses.length) ||
    decide (0 < (strTrim s.baseSectionTextPreserved).length) ||
    decide (0 < (strTrim s.comparedSectionTextPreserved).length)
  let sectionPageMap := sections.map fun s =>
    ({ header := s.header
       base := buildPageRange s.baseClauses
       compared := buildPageRange s.comparedClauses } : SectionPageMap)
  let sectionAnchors := sections.flatMap fun s =>
    let range := sectionPageMap.find? fun entry => decide (entry.header = s.header)
    buildSectionAnchors s.header s.rows (range.bind fun r => r.compared)
  let rows := sections.flatMap fun s =>
    s.rows.map fun row => { row with key := s.header ++ "::" ++ row.key }
  let selectedSectionDefault :=
    match sections.find? fun s => decide (s.status = SectionMatchStatus.matched) with
    | some s => some s.header
    | none => (sections.head?).map fun s => s.header
  { sections := sections
    sectionPageMap := sectionPageMap
    sectionAnchors := sectionAnchors
    rows := rows
    selectedSectionDefault := selectedSectionDefault }

/-! ### Derived observables and concrete inputs used by the verification -/

/-- Number of source lines consumed into non-synthetic clauses (the sum
of their `sourceLineCount`s). -/
def nonSyntheticLineSum (clauses : List ClauseNode) : ℕ :=
  ((clauses.filter fun c => !c.synthetic).map fun c => c.sourceLineCount).sum

/-- Number of source lines consumed into any clause, synthetic ones
included — the quantity the original C1 claims `mappedLines` equals. -/
def allLineSum (clauses : List ClauseNode) : ℕ :=
  (clauses.map fun c => c.sourceLineCount).sum

/-- The first entry of a score list attaining the minimal score. -/
def firstArgMin (l : List (ℤ × ℚ)) : Option (ℤ × ℚ) :=
  l.find? fun p => l.all fun q => decide (p.2 ≤ q.2)

/-- Modelled from the amended C4 claim: the number of separator spaces
between an existing line text and the next non-empty token — the
multi-space rule applies to every gap above the threshold, and the
single word-character space only at or below it. -/
def amendedSpaceCount (current token : String) (gap : ℚ) : ℕ :=
  if shouldAttachWithoutSpace current token then 0
  else if xGapSpaceThreshold < gap then (max 1 (jsRound (gap / (17/5)))).toNat
  else if checkLast current isWordChar && checkFirst token isWordChar then 1
  else 0

/-- Invariant of the parser state: `mapped` counts exactly the source
lines consumed into non-synthetic clauses (the finished ones plus the
clause under construction), and the clause under construction is never
synthetic. -/
def ParseStateConsistent (st : ParseState) : Prop :=
  st.mapped = nonSyntheticLineSum st.clauses +
    (match st.currentClause with
     | some cl => cl.sourceLineCount
     | none => 0) ∧
  ∀ cl, st.currentClause = some cl → cl.synthetic = false

/-- A degenerate external diff library for concrete witnesses. -/
def constDiffLib : DiffLib :=
  { wordChanges := fun _ _ => []
    sentenceChanges := fun _ _ => []
    trimmedLineChanges := fun _ _ => [] }

/-- C1 counterexample input: one body line with no recognisable label. -/
def cexUnmatchedLine : PageLine :=
  { page := 1, text := "hello world", x := 0, y := 500, height := 10, pageHeight := 800 }

/-- C2 counterexample inputs: two identical unlabelled footer-band lines
on pages 1 and 2, and a marker-clause footer-band line on page 3 with
the same footer signature. -/
def cexFooterLine1 : PageLine :=
  { page := 1, text := "a some repeated footer line", x := 0, y := 10, height := 10,
    pageHeight := 100 }

def cexFooterLine2 : PageLine :=
  { page := 2, text := "a some repeated footer line", x := 0, y := 10, height := 10,
    pageHeight := 100 }

def cexFooterLine3 : PageLine :=
  { page := 3, text := "(a) some repeated footer line", x := 0, y := 10, height := 10,
    pageHeight := 100 }

/-- C3 counterexample inputs: a superscript candidate (index 2) between
two eligible neighbours of equal score — index 0 at `|Δy| = 2, Δx = 0`
and index 3 at `|Δy| = 1, Δx = 140`. -/
def cexSupLine0 : PageLine :=
  { page := 1, text := "word one", x := 0, y := 12, height := 10, pageHeight := 800 }

def cexSupLine1 : PageLine :=
  { page := 1, text := "word two", x := 0, y := 30, height := 10, pageHeight := 800 }

def cexSupLine2 : PageLine :=
  { page := 1, text := "1", x := 0, y := 10, height := 5, pageHeight := 800 }

def cexSupLine3 : PageLine :=
  { page := 1, text := "another line", x := 140, y := 9, height := 10, pageHeight := 800 }

/-- C4 counterexample inputs: two word fragments with gap
`16.8 − 10 = 6.8 > 1.2`, so `max(1, round(6.8/3.4)) = 2` spaces. -/
def cexFragment1 : PositionedText :=
  { text := "ab", x := 0, y := 0, width := 10, height := 10 }

def cexFragment2 : PositionedText :=
  { text := "cd", x := 84/5, y := 0, width := 10, height := 10 }

/-- The join state right after consuming `cexFragment1`. -/
def cexJoinState : JoinState :=
  { result := "ab", previousRightEdge := 10, firstX := 0, maxHeight := 10 }

/-- C5/C6/C7 witness clauses. -/
def cexClause5 : ClauseNode :=
  { id := "1", rawLabel := "1", level := 1, textPreserved := "1. Text body",
    pageStart := 1, pageEnd := 1, anchorPage := 1, anchorY := 700, sourceLineCount := 1 }

def cexDoc5 : ExtractedDocument :=
  { sections := [{ header := "Scope", normalizedHeader := "scope",
                   clauses := [cexClause5], coverage := emptyCoverage }]
    issues := [] }

def cexRow5 : ComparisonRow :=
  { key := "Scope::1"
    labelBase := some "1"
    labelCompared := some "1"
    displayLabel := "1"
    inBase := true
    inCompared := true
    base := some cexClause5
    compared := some cexClause5
    status := RowStatus.unchanged
    diffWord := []
    diffSentence := []
    diffParagraph := [{ value := "1. Text body", kind := TokenKind.equal }] }

def witClauseX1 : ClauseNode :=
  { id := "1", rawLabel := "1", level := 1, textPreserved := "1. same",
    pageStart := 1, pageEnd := 1, anchorPage := 1, anchorY := 10, sourceLineCount := 1 }

def witClauseY1 : ClauseNode :=
  { id := "1", rawLabel := "1", level := 1, textPreserved := "1. same ",
    pageStart := 1, pageEnd := 1, anchorPage := 1, anchorY := 20, sourceLineCount := 1 }

def witClauseX2 : ClauseNode :=
  { id := "2", rawLabel := "2", level := 1, textPreserved := "2. base only",
    pageStart := 1, pageEnd := 1, anchorPage := 1, anchorY := 30, sourceLineCount := 1 }

def witClauseY3 : ClauseNode :=
  { id := "3", rawLabel := "3", level := 1, textPreserved := "3. compared only",
    pageStart := 1, pageEnd := 1, anchorPage := 1, anchorY := 40, sourceLineCount := 1 }

/-- C7 witness: a section whose id `1` occurs twice. -/
def witDupSection : ExtractedSection :=
  { header := "Scope", normalizedHeader := "scope"
    clauses := [witClauseX1, witClauseY1, witClauseX2]
    coverage := emptyCoverage }

/-- The virtual section materialised when an empty document is
extracted. -/
def unsecEmptySection : ExtractedSection :=
  { header := "Unsectioned", normalizedHeader := "unsectioned", clauses := [],
    coverage := { totalLines := 0, mappedLines := 0, unmatchedLines := 0, percent := 100 },
    startParagraph := none, endParagraph := none }

/-! ### Helper lemmas -/

theorem collapseAdjacentF_cons (fuel : ℕ) (t : DiffToken) (l : List DiffToken)
    (h : l.length ≤ fuel) :
    ∃ v tail, collapseAdjacentF fuel (t :: l) = { value := v, kind := t.kind } :: tail := by
  induction fuel generalizing t l with
  | zero =>
    have hl : l = [] := List.length_eq_zero.mp (Nat.le_zero.mp h)
    subst hl
    exact ⟨t.value, [], rfl⟩
  | succ fuel ih =>
    cases l with
    | nil => exact ⟨t.value, [], rfl⟩
    | cons b rest =>
      by_cases hk : t.kind = b.kind
      · simp only [collapseAdjacentF, if_pos hk]
        exact ih { value := t.value ++ b.value, kind := t.kind } rest
          (Nat.le_of_succ_le_succ h)
      · simp only [collapseAdjacentF, if_neg hk]
        exact ⟨t.value, _, rfl⟩

theorem collapseAdjacentF_chain (fuel : ℕ) (l : List DiffToken) (h : l.length ≤ fuel) :
    List.Chain' (fun a b => a.kind ≠ b.kind) (collapseAdjacentF fuel l) := by
  induction fuel generalizing l with
  | zero =>
    have hl : l = [] := List.length_eq_zero.mp (Nat.le_zero.mp h)
    subst hl
    simp [collapseAdjacentF]
  | succ fuel ih =>
    match l, h with
    | [], _ => simp [collapseAdjacentF]
    | [t], _ => simp [collapseAdjacentF]
    | a :: b :: rest, h =>
      by_cases hk : a.kind = b.kind
      · simp only [collapseAdjacentF, if_pos hk]
        exact ih _ (Nat.le_of_succ_le_succ h)
      · simp only [collapseAdjacentF, if_neg hk]
        rw [List.chain'_cons']
        refine ⟨?_, ih _ (Nat.le_of_succ_le_succ h)⟩
        intro y hy
        obtain ⟨v, tail, heq⟩ :=
          collapseAdjacentF_cons fuel b rest (Nat.le_of_succ_le_succ (Nat.le_of_succ_le h))
        rw [heq] at hy
        simp only [List.head?_cons, Option.mem_def, Option.some.injEq] at hy
        rw [← hy]
        exact hk

theorem collapseAdjacent_chain (l : List DiffToken) :
    List.Chain' (fun a b => a.kind ≠ b.kind) (collapseAdjacent l) :=
  collapseAdjacentF_chain l.length l (Nat.le_refl _)

/-! ### Claim theorems -/

/-- C10: for every pair of input strings, and for any behaviour of the
external `diffWordsWithSpace` library function, the token list returned
by `buildWordDiff` contains no two adjacent tokens of the same kind —
the final merge pass of `collapseWhitespaceNoiseTokens` guarantees that
consecutive output tokens always differ in kind. -/
theorem C10_word_diff_no_adjacent_same_kind
    (wordChanges : String → String → List Change) (base compared : String) :
    List.Chain' (fun a b => a.kind ≠ b.kind) (buildWordDiff wordChanges base compared) :=
  collapseAdjacent_chain _

/-- C9: a section whose `totalLines` is 0 gets coverage percent 100 from
`parseSectionClauses`, and merged cross-side coverage with both totals 0
gets percent 100 from `mergeCoverage`; the guarded division is never
taken with a zero `totalLines`. -/
theorem C9_zero_total_percent_100 :
    (∀ (header : String) (lines : List PageLine) (side : Side),
      (parseSectionClauses header lines side).coverage.totalLines = 0 →
      (parseSectionClauses header lines side).coverage.percent = 100) ∧
    (∀ base compared : Option SectionCoverage,
      (base.map fun c => c.totalLines).getD 0 +
        (compared.map fun c => c.totalLines).getD 0 = 0 →
      (mergeCoverage base compared).percent = 100) := by
  constructor
  · intro header lines side h
    have hlen : lines.length = 0 := h
    simp [parseSectionClauses, hlen]
  · intro b c h
    simp only [mergeCoverage, h]
    simp [emptyCoverage]

theorem C9_zero_total_percent_100_witness :
    (parseSectionClauses "Scope" [] Side.base).coverage.totalLines = 0 ∧
    (parseSectionClauses "Scope" [] Side.base).coverage.percent = 100 ∧
    ((none : Option SectionCoverage).map fun c => c.totalLines).getD 0 +
      ((none : Option SectionCoverage).map fun c => c.totalLines).getD 0 = 0 ∧
    (mergeCoverage none none).percent = 100 :=
  ⟨by decide, C9_zero_total_percent_100.1 "Scope" [] Side.base (by decide),
   by decide, C9_zero_total_percent_100.2 none none (by decide)⟩

theorem C8_aux (lib : DiffLib) (iss1 iss2 : List ParagraphRecord) :
    (buildSectionComparisons lib { sections := [unsecEmptySection], issues := iss1 }
      { sections := [unsecEmptySection], issues := iss2 }).sections = [] ∧
    (buildSectionComparisons lib { sections := [unsecEmptySection], issues := iss1 }
      { sections := [unsecEmptySection], issues := iss2 }).rows = [] ∧
    (buildSectionComparisons lib { sections := [unsecEmptySection], issues := iss1 }
      { sections := [unsecEmptySection], issues := iss2 }).selectedSectionDefault = none := by
  refine ⟨?_, ?_, ?_⟩ <;> rfl

/-- C8: comparing two empty documents (no extracted lines on either
side) produces `sections = []`, `rows = []` and no
`selectedSectionDefault`, although extraction first materialises a
virtual `Unsectioned` section with no clauses. -/
theorem C8_empty_documents (lib : DiffLib) (side1 side2 : Side) :
    extractSections [] side1 = { sections := [unsecEmptySection], issues := [] } ∧
    (buildSectionComparisons lib (extractSections [] side1)
      (extractSections [] side2)).sections = [] ∧
    (buildSectionComparisons lib (extractSections [] side1)
      (extractSections [] side2)).rows = [] ∧
    (buildSectionComparisons lib (extractSections [] side1)
      (extractSections [] side2)).selectedSectionDefault = none := by
  have h1 : extractSections [] side1 = { sections := [unsecEmptySection], issues := [] } := by
    cases side1 <;> decide
  have h2 : extractSections [] side2 = { sections := [unsecEmptySection], issues := [] } := by
    cases side2 <;> decide
  refine ⟨h1, ?_, ?_, ?_⟩ <;> rw [h1, h2]
  · exact (C8_aux lib [] []).1
  · exact (C8_aux lib [] []).2.1
  · exact (C8_aux lib [] []).2.2

/-- C1 counterexample: a section made of one unlabelled line.  The line
is consumed into a synthetic clause (`allLineSum = 1`, one clause), yet
`mappedLines = 0` and the full line count is reported as unmatched — so
`mappedLines` does not count lines consumed into synthetic clauses built
from the unmatched buffer. -/
theorem C1_counterexample :
    (parseSectionClauses "Unsectioned" [cexUnmatchedLine] Side.base).coverage.mappedLines = 0 ∧
    allLineSum (parseSectionClauses "Unsectioned" [cexUnmatchedLine] Side.base).clauses = 1 ∧
    ((parseSectionClauses "Unsectioned" [cexUnmatchedLine] Side.base).clauses.map
      fun c => c.synthetic) = [true] ∧
    (parseSectionClauses "Unsectioned" [cexUnmatchedLine] Side.base).coverage.totalLines = 1 ∧
    (parseSectionClauses "Unsectioned" [cexUnmatchedLine] Side.base).coverage.unmatchedLines = 1 := by
  decide

/-- C2 counterexample: `cexFooterLine3` sits in the footer band, its
signature is shared with footer-band lines on two other pages, it is not
a canonical section header and not a known footer phrase — the claimed
iff requires it to be dropped — yet `filterFooterLines` keeps it,
because a line that looks like a clause start is exempt from the
repeated-signature rule. -/
theorem C2_counterexample :
    filterFooterLines [cexFooterLine1, cexFooterLine2, cexFooterLine3] = [cexFooterLine3] ∧
    inFooterBand cexFooterLine3 = true ∧
    inFooterBand cexFooterLine1 = true ∧
    cexFooterLine1.page ≠ cexFooterLine3.page ∧
    buildFooterSignature (normalizeFooterText cexFooterLine1.text) =
      buildFooterSignature (normalizeFooterText cexFooterLine3.text) ∧
    hasRepeatedFooterSignature [cexFooterLine1, cexFooterLine2, cexFooterLine3]
      (buildFooterSignature (normalizeFooterText cexFooterLine3.text)) = true ∧
    (headerLookup (normalizeHeader (normalizeFooterText cexFooterLine3.text))).isNone = true ∧
    likelyFooterLine (normalizeFooterText cexFooterLine3.text) = false := by
  decide

/-- C3 counterexample: the candidate at index 2 has exactly two eligible
neighbours with equal scores (index 0 with `|Δy| = 2` and index 3 with
`|Δy| = 1`), and the superscript is attached to index 0 — the neighbour
with the larger `|Δy|` — because ties keep the earlier neighbour in the
iteration order −2, −1, +1, +2. -/
theorem C3_counterexample :
    eligibleNeighborScores [cexSupLine0, cexSupLine1, cexSupLine2, cexSupLine3] []
        (pageMedianHeight [cexSupLine0, cexSupLine1, cexSupLine2, cexSupLine3] 1)
        cexSupLine2 2 = [(0, 2), (3, 2)] ∧
    |cexSupLine0.y - cexSupLine2.y| = 2 ∧
    |cexSupLine3.y - cexSupLine2.y| = 1 ∧
    isSuperscriptCandidate cexSupLine2
      (pageMedianHeight [cexSupLine0, cexSupLine1, cexSupLine2, cexSupLine3] 1) = true ∧
    (attachSuperscripts [cexSupLine0, cexSupLine1, cexSupLine2, cexSupLine3]).map
      (fun l => l.text) = ["word one¹", "word two", "another line"] := by
  decide

/-- C4 counterexample: two word fragments with gap `6.8 > 1.2` on both
sides of which stand word characters, not classified attach-without-
space; the claim requires exactly one inserted space, but the composed
text carries two (`max(1, round(6.8/3.4)) = 2`). -/
theorem C4_counterexample :
    (joinLineFragments [cexFragment1, cexFragment2]).text = "ab  cd" ∧
    (joinLineFragments [cexFragment1, cexFragment2]).text ≠ "ab cd" ∧
    cexFragment2.x - (cexFragment1.x + cexFragment1.width) = 34/5 ∧
    xGapSpaceThreshold < 34/5 ∧
    checkLast "ab" isWordChar = true ∧
    checkFirst "cd" isWordChar = true ∧
    shouldAttachWithoutSpace "ab" "cd" = false := by
  decide

/-- C4 (amended): when composing a line from x-sorted fragments, for a
non-empty accumulated text and a non-empty next token, the inserted
separator is: no space when the attach heuristic fires; otherwise
`max(1, round(gap/3.4))` spaces whenever `gap > 1.2` (independently of
word characters); otherwise one space exactly when the adjoining
characters on both sides are word characters. -/
theorem C4_spacing_amended (st : JoinState) (fragment : PositionedText)
    (htoken : (normalizeInlineToken fragment.text).isEmpty = false)
    (hres : st.result.isEmpty = false) :
    (joinStep st fragment).result =
      st.result ++
        spacesStr (amendedSpaceCount st.result (normalizeInlineToken fragment.text)
          (fragment.x - st.previousRightEdge)) ++
        normalizeInlineToken fragment.text := by
  unfold joinStep amendedSpaceCount
  simp only [htoken, hres, Bool.false_eq_true, if_false]
  by_cases hatt : shouldAttachWithoutSpace st.result (normalizeInlineToken fragment.text)
  · simp [hatt, spacesStr]
  · by_cases hgap : xGapSpaceThreshold < fragment.x - st.previousRightEdge
    · simp [hatt, hgap, gt_iff_lt]
    · by_cases hword : checkLast st.result isWordChar &&
        checkFirst (normalizeInlineToken fragment.text) isWordChar
      · simp [hatt, hgap, hword, gt_iff_lt, spacesStr]
      · simp [hatt, hgap, hword, gt_iff_lt, spacesStr]

theorem C4_spacing_amended_witness :
    (joinStep cexJoinState cexFragment2).result =
      cexJoinState.result ++
        spacesStr (amendedSpaceCount cexJoinState.result
          (normalizeInlineToken cexFragment2.text)
          (cexFragment2.x - cexJoinState.previousRightEdge)) ++
        normalizeInlineToken cexFragment2.text :=
  C4_spacing_amended cexJoinState cexFragment2 (by decide) (by decide)

theorem find?_congr_mem {α : Type} (l : List α) (p q : α → Bool)
    (h : ∀ x ∈ l, p x = q x) : l.find? p = l.find? q := by
  induction l with
  | nil => rfl
  | cons a l ih =>
    have ha := h a (List.mem_cons_self a l)
    by_cases hp : p a = true
    · have hq : q a = true := by rw [← ha]; exact hp
      rw [List.find?_cons_of_pos _ hp, List.find?_cons_of_pos _ hq]
    · have hq : ¬q a = true := by rw [← ha]; exact hp
      rw [List.find?_cons_of_neg _ hp, List.find?_cons_of_neg _ hq]
      exact ih fun x hx => h x (List.mem_cons_of_mem _ hx)

theorem firstArgMin_cons (p q : ℤ × ℚ) (rest : List (ℤ × ℚ)) :
    firstArgMin (p :: q :: rest) =
      if q.2 < p.2 then firstArgMin (q :: rest) else firstArgMin (p :: rest) := by
  unfold firstArgMin
  by_cases hq : q.2 < p.2
  · rw [if_pos hq]
    have hpfail : ((p :: q :: rest).all fun r => decide (p.2 ≤ r.2)) = false := by
      rw [Bool.eq_false_iff]
      simp only [ne_eq, List.all_cons, Bool.and_eq_true, decide_eq_true_eq]
      intro hcontra
      exact absurd hcontra.2.1 (not_le.mpr hq)
    have key : ∀ x : ℤ × ℚ, ((p :: q :: rest).all fun r => decide (x.2 ≤ r.2)) =
        ((q :: rest).all fun r => decide (x.2 ≤ r.2)) := by
      intro x
      rw [List.all_cons]
      cases hS : ((q :: rest).all fun r => decide (x.2 ≤ r.2)) with
      | false => simp
      | true =>
        have h' := hS
        rw [List.all_cons, Bool.and_eq_true] at h'
        have hxq : x.2 ≤ q.2 := decide_eq_true_eq.mp h'.1
        have hxp : x.2 ≤ p.2 := le_of_lt (lt_of_le_of_lt hxq hq)
        simp [hxp]
    simp only [List.find?_cons, hpfail, key q]
    cases hS : ((q :: rest).all fun r => decide (q.2 ≤ r.2)) with
    | true => simp only [hS]
    | false =>
      simp only [hS]
      exact find?_congr_mem rest _ _ fun x _ => key x
  · rw [if_neg hq]
    have hpq : p.2 ≤ q.2 := le_of_not_lt hq
    by_cases hP : (rest.all fun r => decide (p.2 ≤ r.2)) = true
    · have h1 : ((p :: q :: rest).all fun r => decide (p.2 ≤ r.2)) = true := by
        simp [List.all_cons, hP, hpq]
      have h2 : ((p :: rest).all fun r => decide (p.2 ≤ r.2)) = true := by
        simp [List.all_cons, hP]
      simp only [List.find?_cons, h1, h2]
    · have h1 : ((p :: q :: rest).all fun r => decide (p.2 ≤ r.2)) = false := by
        rw [Bool.eq_false_iff]
        simp only [ne_eq, List.all_cons, Bool.and_eq_true]
        intro hcontra
        exact hP hcontra.2.2
      have h2 : ((p :: rest).all fun r => decide (p.2 ≤ r.2)) = false := by
        rw [Bool.eq_false_iff]
        simp only [ne_eq, List.all_cons, Bool.and_eq_true]
        intro hcontra
        exact hP hcontra.2
      have h3 : ((p :: q :: rest).all fun r => decide (q.2 ≤ r.2)) = false := by
        rw [Bool.eq_false_iff]
        simp only [ne_eq, List.all_cons, Bool.and_eq_true, decide_eq_true_eq]
        intro hcontra
        apply hP
        have hrest := hcontra.2.2
        rw [List.all_eq_true] at hrest ⊢
        intro r hr
        exact decide_eq_true_eq.mpr
          (le_trans hpq (decide_eq_true_eq.mp (hrest r hr)))
      simp only [List.find?_cons, h1, h2, h3]
      apply find?_congr_mem
      intro x _
      by_cases hxp : x.2 ≤ p.2
      · have hxq : x.2 ≤ q.2 := le_trans hxp hpq
        simp [List.all_cons, hxp, hxq]
      · simp [List.all_cons, hxp]

theorem pickFold_some (l : List (ℤ × ℚ)) :
    ∀ p : ℤ × ℚ, pickFold (some p) l = firstArgMin (p :: l) := by
  induction l with
  | nil =>
    intro p
    simp [pickFold, firstArgMin, List.find?]
  | cons q rest ih =>
    intro p
    show (if q.2 < p.2 then pickFold (some q) rest else pickFold (some p) rest) =
      firstArgMin (p :: q :: rest)
    rw [firstArgMin_cons]
    by_cases h : q.2 < p.2
    · rw [if_pos h, if_pos h, ih]
    · rw [if_neg h, if_neg h, ih]

theorem pickFold_none (l : List (ℤ × ℚ)) : pickFold none l = firstArgMin l := by
  cases l with
  | nil => rfl
  | cons p rest =>
    show pickFold (some p) rest = firstArgMin (p :: rest)
    exact pickFold_some rest p

/-- C3 (amended): a superscript candidate is attached to the *first*
eligible neighbour in the iteration order −2, −1, +1, +2 that attains
the minimal score `|Δy| + |Δx|/140`; when two eligible neighbours have
equal scores the earlier one in that order wins, not necessarily the one
with the smaller `|Δy|`. -/
theorem C3_superscript_pick_first_minimum (mutableLines : List PageLine)
    (skip : List ℕ) (pageMedianH : ℚ) (line : PageLine) (i : ℕ) :
    pickBestNeighbor mutableLines skip pageMedianH line i =
      (firstArgMin (eligibleNeighborScores mutableLines skip pageMedianH line i)).map
        fun p => p.1 := by
  unfold pickBestNeighbor
  rw [pickFold_none]

theorem mem_dedupFirstAux {α : Type} [DecidableEq α] (l : List α) :
    ∀ (seen : List α) (x : α), x ∈ dedupFirstAux seen l ↔ (x ∈ l ∧ x ∉ seen) := by
  induction l with
  | nil => intro seen x; simp [dedupFirstAux]
  | cons a l ih =>
    intro seen x
    by_cases ha : a ∈ seen
    · rw [show dedupFirstAux seen (a :: l) = dedupFirstAux seen l from by
        simp [dedupFirstAux, ha]]
      rw [ih]
      constructor
      · rintro ⟨hx, hns⟩
        exact ⟨List.mem_cons_of_mem _ hx, hns⟩
      · rintro ⟨hx, hns⟩
        rcases List.mem_cons.mp hx with heq | hx'
        · subst heq; exact absurd ha hns
        · exact ⟨hx', hns⟩
    · rw [show dedupFirstAux seen (a :: l) = a :: dedupFirstAux (a :: seen) l from by
        simp [dedupFirstAux, ha]]
      rw [List.mem_cons, ih]
      constructor
      · rintro (heq | ⟨hx, hns⟩)
        · subst heq; exact ⟨List.mem_cons_self _ _, ha⟩
        · exact ⟨List.mem_cons_of_mem _ hx,
            fun hmem => hns (List.mem_cons_of_mem _ hmem)⟩
      · rintro ⟨hx, hns⟩
        by_cases hxa : x = a
        · exact Or.inl hxa
        · rcases List.mem_cons.mp hx with heq | hx'
          · exact absurd heq hxa
          · exact Or.inr ⟨hx', by
              intro hmem
              rcases List.mem_cons.mp hmem with heq | hmem'
              · exact hxa heq
              · exact hns hmem'⟩

theorem mem_dedupFirst {α : Type} [DecidableEq α] (l : List α) (x : α) :
    x ∈ dedupFirst l ↔ x ∈ l := by
  unfold dedupFirst
  rw [mem_dedupFirstAux]
  simp

theorem nodup_dedupFirstAux {α : Type} [DecidableEq α] (l : List α) :
    ∀ seen : List α, (dedupFirstAux seen l).Nodup := by
  induction l with
  | nil => intro seen; simp [dedupFirstAux]
  | cons a l ih =>
    intro seen
    by_cases ha : a ∈ seen
    · rw [show dedupFirstAux seen (a :: l) = dedupFirstAux seen l from by
        simp [dedupFirstAux, ha]]
      exact ih seen
    · rw [show dedupFirstAux seen (a :: l) = a :: dedupFirstAux (a :: seen) l from by
        simp [dedupFirstAux, ha]]
      rw [List.nodup_cons]
      refine ⟨?_, ih (a :: seen)⟩
      intro hmem
      exact ((mem_dedupFirstAux l (a :: seen) a).mp hmem).2 (List.mem_cons_self _ _)

theorem nodup_dedupFirst {α : Type} [DecidableEq α] (l : List α) :
    (dedupFirst l).Nodup :=
  nodup_dedupFirstAux l []

theorem clausesWithId_mem_map_id (b : List ClauseNode) (key : String) (x : ClauseNode)
    (hx : x ∈ clausesWithId b key) : key ∈ b.map fun cl => cl.id := by
  unfold clausesWithId at hx
  rw [List.mem_filter] at hx
  exact List.mem_map.mpr ⟨x, hx.1, by simpa using hx.2⟩

theorem rowForKey_mem_rows (lib : DiffLib) (b c : List ClauseNode) (key : String)
    (hkey : (key ∈ b.map fun cl => cl.id) ∨ key ∈ c.map fun cl => cl.id) :
    rowForKey lib b c key ∈ buildRowsForSection lib b c := by
  unfold buildRowsForSection
  apply List.mem_map_of_mem
  unfold buildClauseSequence
  rw [mem_dedupFirst, List.mem_append]
  exact hkey

theorem rowForKey_self (lib : DiffLib) (cs : List ClauseNode) (key : String)
    (hkey : key ∈ cs.map fun cl => cl.id) :
    (rowForKey lib cs cs key).status = RowStatus.unchanged ∨
      ((rowForKey lib cs cs key).status = RowStatus.ambiguous ∧
        2 ≤ (clausesWithId cs key).length) := by
  obtain ⟨cl, hc, hcid⟩ := List.mem_map.mp hkey
  have hne : clausesWithId cs key ≠ [] := by
    intro hnil
    have hmem : cl ∈ clausesWithId cs key :=
      List.mem_filter.mpr ⟨hc, by simp [hcid]⟩
    rw [hnil] at hmem
    exact absurd hmem (List.not_mem_nil cl)
  by_cases hdup : 1 < (clausesWithId cs key).length
  · refine Or.inr ⟨?_, by omega⟩
    unfold rowForKey
    rw [if_pos (Or.inl hdup)]
    rfl
  · refine Or.inl ?_
    have hpos : 0 < (clausesWithId cs key).length := List.length_pos.mpr hne
    have hlen : (clausesWithId cs key).length = 1 := by omega
    obtain ⟨x, hx⟩ := List.length_eq_one.mp hlen
    unfold rowForKey
    rw [if_neg (by rw [hx]; simp)]
    rw [hx]
    simp

/-- C5: for every extracted document `a` and any behaviour of the
external diff library, every row of `compare(a, a)` has status
`unchanged`, or status `ambiguous` and then some clause id occurs more
than once within a section of `a`; no row is `added`, `removed` or
`changed`. -/
theorem C5_self_compare_rows (lib : DiffLib) (a : ExtractedDocument)
    (row : ComparisonRow) (hrow : row ∈ (buildSectionComparisons lib a a).rows) :
    row.status = RowStatus.unchanged ∨
      (row.status = RowStatus.ambiguous ∧
        ∃ s ∈ a.sections, ∃ id, 2 ≤ (clausesWithId s.clauses id).length) := by
  simp only [buildSectionComparisons] at hrow
  rw [List.mem_flatMap] at hrow
  obtain ⟨s, hs, hrow⟩ := hrow
  rw [List.mem_map] at hrow
  obtain ⟨r0, hr0, hrow⟩ := hrow
  have hstatus : row.status = r0.status := by rw [← hrow]
  rw [List.mem_filter] at hs
  obtain ⟨hsb, _⟩ := hs
  rw [List.mem_map] at hsb
  obtain ⟨h, _, hsec⟩ := hsb
  rw [← hsec] at hr0
  simp only [buildOneSection] at hr0
  unfold buildRowsForSection at hr0
  rw [List.mem_map] at hr0
  obtain ⟨key, hkey, hr0eq⟩ := hr0
  unfold buildClauseSequence at hkey
  rw [mem_dedupFirst, List.mem_append] at hkey
  have hkey' :
      key ∈ (((sectionByHeader (a.sections.filter fun s => !isAppendixSection s.header) h).map
        fun s => s.clauses).getD []).map fun cl => cl.id := by
    rcases hkey with hk | hk <;> exact hk
  cases hfind : sectionByHeader (a.sections.filter fun s => !isAppendixSection s.header) h with
  | none =>
    rw [hfind] at hkey'
    simp at hkey'
  | some sec =>
    rw [hfind] at hkey' hr0eq
    simp only [Option.map_some', Option.getD_some] at hkey' hr0eq
    have hself := rowForKey_self lib sec.clauses key hkey'
    rw [hr0eq] at hself
    rw [← hstatus] at hself
    rcases hself with hunch | ⟨hamb, hdup⟩
    · exact Or.inl hunch
    · refine Or.inr ⟨hamb, sec, ?_, key, hdup⟩
      have hmem := List.mem_of_find?_eq_some hfind
      rw [List.mem_reverse] at hmem
      exact (List.mem_filter.mp hmem).1

theorem C5_self_compare_rows_witness :
    cexRow5.status = RowStatus.unchanged ∨
      (cexRow5.status = RowStatus.ambiguous ∧
        ∃ s ∈ cexDoc5.sections, ∃ id, 2 ≤ (clausesWithId s.clauses id).length) :=
  C5_self_compare_rows constDiffLib cexDoc5 cexRow5 (by decide)

/-- C6: within a section, for a clause id present exactly once on each
side the row is `unchanged` iff the two `textPreserved` values are equal
after trimming (else `changed`); for an id present only in base the row
is `removed` and all three diffs are one `removed` token with the base
text; for an id present only in compared the row is `added` and all
three diffs are one `added` token with the compared text. -/
theorem C6_row_status_by_presence (lib : DiffLib) (b c : List ClauseNode)
    (key : String) :
    (∀ x y, clausesWithId b key = [x] → clausesWithId c key = [y] →
      ((rowForKey lib b c key).status = RowStatus.unchanged ↔
        strTrim x.textPreserved = strTrim y.textPreserved) ∧
      ((rowForKey lib b c key).status = RowStatus.unchanged ∨
        (rowForKey lib b c key).status = RowStatus.changed) ∧
      rowForKey lib b c key ∈ buildRowsForSection lib b c) ∧
    (∀ x, clausesWithId b key = [x] → clausesWithId c key = [] →
      (rowForKey lib b c key).status = RowStatus.removed ∧
      (rowForKey lib b c key).diffWord =
        [{ value := x.textPreserved, kind := TokenKind.removed }] ∧
      (rowForKey lib b c key).diffSentence =
        [{ value := x.textPreserved, kind := TokenKind.removed }] ∧
      (rowForKey lib b c key).diffParagraph =
        [{ value := x.textPreserved, kind := TokenKind.removed }] ∧
      rowForKey lib b c key ∈ buildRowsForSection lib b c) ∧
    (∀ y, clausesWithId b key = [] → clausesWithId c key = [y] →
      (rowForKey lib b c key).status = RowStatus.added ∧
      (rowForKey lib b c key).diffWord =
        [{ value := y.textPreserved, kind := TokenKind.added }] ∧
      (rowForKey lib b c key).diffSentence =
        [{ value := y.textPreserved, kind := TokenKind.added }] ∧
      (rowForKey lib b c key).diffParagraph =
        [{ value := y.textPreserved, kind := TokenKind.added }] ∧
      rowForKey lib b c key ∈ buildRowsForSection lib b c) := by
  refine ⟨?_, ?_, ?_⟩
  · intro x y h1 h2
    have hmem : rowForKey lib b c key ∈ buildRowsForSection lib b c :=
      rowForKey_mem_rows lib b c key
        (Or.inl (clausesWithId_mem_map_id b key x (by rw [h1]; exact List.mem_cons_self _ _)))
    refine ⟨?_, ?_, hmem⟩ <;>
      · unfold rowForKey
        rw [if_neg (by rw [h1, h2]; simp)]
        rw [h1, h2]
        by_cases ht : strTrim x.textPreserved = strTrim y.textPreserved <;>
          simp [ht]
  · intro x h1 h2
    have hmem : rowForKey lib b c key ∈ buildRowsForSection lib b c :=
      rowForKey_mem_rows lib b c key
        (Or.inl (clausesWithId_mem_map_id b key x (by rw [h1]; exact List.mem_cons_self _ _)))
    refine ⟨?_, ?_, ?_, ?_, hmem⟩ <;>
      · unfold rowForKey
        rw [if_neg (by rw [h1, h2]; simp)]
        rw [h1, h2]
        simp
  · intro y h1 h2
    have hmem : rowForKey lib b c key ∈ buildRowsForSection lib b c :=
      rowForKey_mem_rows lib b c key
        (Or.inr (clausesWithId_mem_map_id c key y (by rw [h2]; exact List.mem_cons_self _ _)))
    refine ⟨?_, ?_, ?_, ?_, hmem⟩ <;>
      · unfold rowForKey
        rw [if_neg (by rw [h1, h2]; simp)]
        rw [h1, h2]
        simp

theorem C6_row_status_by_presence_witness :
    (((rowForKey constDiffLib [witClauseX1, witClauseX2] [witClauseY1, witClauseY3]
        "1").status = RowStatus.unchanged ↔
      strTrim witClauseX1.textPreserved = strTrim witClauseY1.textPreserved) ∧
     ((rowForKey constDiffLib [witClauseX1, witClauseX2] [witClauseY1, witClauseY3]
        "1").status = RowStatus.unchanged ∨
      (rowForKey constDiffLib [witClauseX1, witClauseX2] [witClauseY1, witClauseY3]
        "1").status = RowStatus.changed) ∧
     rowForKey constDiffLib [witClauseX1, witClauseX2] [witClauseY1, witClauseY3] "1" ∈
       buildRowsForSection constDiffLib [witClauseX1, witClauseX2]
         [witClauseY1, witClauseY3]) ∧
    ((rowForKey constDiffLib [witClauseX1, witClauseX2] [witClauseY1, witClauseY3]
        "2").status = RowStatus.removed) ∧
    ((rowForKey constDiffLib [witClauseX1, witClauseX2] [witClauseY1, witClauseY3]
        "3").status = RowStatus.added) :=
  ⟨(C6_row_status_by_presence constDiffLib [witClauseX1, witClauseX2]
      [witClauseY1, witClauseY3] "1").1 witClauseX1 witClauseY1 (by decide) (by decide),
   ((C6_row_status_by_presence constDiffLib [witClauseX1, witClauseX2]
      [witClauseY1, witClauseY3] "2").2.1 witClauseX2 (by decide) (by decide)).1,
   ((C6_row_status_by_presence constDiffLib [witClauseX1, witClauseX2]
      [witClauseY1, witClauseY3] "3").2.2 witClauseY3 (by decide) (by decide)).1⟩

theorem clausesWithId_length_count (cs : List ClauseNode) (key : String) :
    (clausesWithId cs key).length = (cs.map fun cl => cl.id).count key := by
  unfold clausesWithId
  rw [← List.countP_eq_length_filter, List.count, List.countP_map]
  apply List.countP_congr
  intro cl _
  simp

theorem sum_map_ite_eq_sum_filter {α : Type} (L : List α) (P : α → Bool) (f : α → ℕ) :
    (L.map fun k => if P k then f k else 0).sum = ((L.filter P).map f).sum := by
  induction L with
  | nil => rfl
  | cons a L ih => by_cases hP : P a <;> simp [hP, ih, List.filter_cons]

theorem dedupFirst_perm_dedup {α : Type} [DecidableEq α] (l : List α) :
    List.Perm (dedupFirst l) l.dedup := by
  rw [List.perm_iff_count]
  intro a
  by_cases ha : a ∈ l
  · rw [List.count_eq_one_of_mem (nodup_dedupFirst l) ((mem_dedupFirst l a).mpr ha),
      List.count_eq_one_of_mem l.nodup_dedup (List.mem_dedup.mpr ha)]
  · rw [List.count_eq_zero_of_not_mem fun h => ha ((mem_dedupFirst l a).mp h),
      List.count_eq_zero_of_not_mem fun h => ha (List.mem_dedup.mp h)]

theorem detectDuplicate_issue_count (side : Side) (sec : ExtractedSection) :
    (detectDuplicateClauseIssues side sec).length =
      (sec.clauses.filter fun cl =>
        decide (2 ≤ (clausesWithId sec.clauses cl.id).length)).length := by
  unfold detectDuplicateClauseIssues
  rw [List.length_flatMap]
  have hmap : List.map
      (List.length ∘ fun clauseId =>
        let group := clausesWithId sec.clauses clauseId
        if group.length < 2 then []
        else group.map fun clause =>
          toIssueRecord side (sec.header ++ "-" ++ clauseId)
            clause.textPreserved clause.pageStart ExtractionFlag.duplicate)
      (dedupFirst (sec.clauses.map fun c => c.id)) =
      List.map
        (fun k => if decide (2 ≤ (clausesWithId sec.clauses k).length) then
          (clausesWithId sec.clauses k).length else 0)
        (dedupFirst (sec.clauses.map fun c => c.id)) := by
    apply List.map_congr_left
    intro k _
    by_cases hk : 2 ≤ (clausesWithId sec.clauses k).length
    · simp only [Function.comp_apply]
      rw [if_neg (by omega), if_pos (by simpa using hk)]
      rw [List.length_map]
    · simp only [Function.comp_apply]
      rw [if_pos (by omega), if_neg (by simpa using hk)]
      rfl
  rw [hmap, sum_map_ite_eq_sum_filter]
  have hperm := ((dedupFirst_perm_dedup (sec.clauses.map fun c => c.id)).filter
    fun k => decide (2 ≤ (clausesWithId sec.clauses k).length)).map
    fun k => (clausesWithId sec.clauses k).length
  rw [hperm.sum_eq]
  have hcount : List.map (fun k => (clausesWithId sec.clauses k).length)
      ((sec.clauses.map fun c => c.id).dedup.filter
        fun k => decide (2 ≤ (clausesWithId sec.clauses k).length)) =
      List.map (fun k => (sec.clauses.map fun c => c.id).count k)
      ((sec.clauses.map fun c => c.id).dedup.filter
        fun k => decide (2 ≤ (clausesWithId sec.clauses k).length)) := by
    apply List.map_congr_left
    intro k _
    exact clausesWithId_length_count sec.clauses k
  rw [hcount, List.sum_map_count_dedup_filter_eq_countP, List.countP_map,
    List.countP_eq_length_filter]
  rfl

/-- C7: within a section, for a clause id with more than one clause on
either side, the emitted row is `ambiguous` with all three diffs a
single `equal` token carrying the fixed explanatory sentence, and
`base`/`compared` point at the first occurrence on each side; every
duplicate occurrence of an id contributes exactly one `duplicate`
extraction issue, and the duplicate-detection pass leaves the extracted
sections untouched (the section is kept). -/
theorem C7_duplicate_ids_ambiguous (lib : DiffLib) (b c : List ClauseNode)
    (key : String)
    (hdup : 1 < (clausesWithId b key).length ∨ 1 < (clausesWithId c key).length) :
    (rowForKey lib b c key).status = RowStatus.ambiguous ∧
    (rowForKey lib b c key).diffWord =
      [{ value := ambiguousExplanation, kind := TokenKind.equal }] ∧
    (rowForKey lib b c key).diffSentence =
      [{ value := ambiguousExplanation, kind := TokenKind.equal }] ∧
    (rowForKey lib b c key).diffParagraph =
      [{ value := ambiguousExplanation, kind := TokenKind.equal }] ∧
    (rowForKey lib b c key).base = (clausesWithId b key).head? ∧
    (rowForKey lib b c key).compared = (clausesWithId c key).head? ∧
    rowForKey lib b c key ∈ buildRowsForSection lib b c ∧
    (∀ (side : Side) (sec : ExtractedSection),
      (detectDuplicateClauseIssues side sec).length =
        (sec.clauses.filter fun cl =>
          decide (2 ≤ (clausesWithId sec.clauses cl.id).length)).length) ∧
    (∀ (lines : List PageLine) (side : Side),
      (extractDocumentStructure lines side).sections =
        (extractSections (attachSuperscripts (filterFooterLines lines)) side).sections) := by
  have hmem : rowForKey lib b c key ∈ buildRowsForSection lib b c := by
    apply rowForKey_mem_rows
    rcases hdup with hb | hc
    · obtain ⟨x, hx⟩ := List.exists_mem_of_length_pos (by omega :
        0 < (clausesWithId b key).length)
      exact Or.inl (clausesWithId_mem_map_id b key x hx)
    · obtain ⟨y, hy⟩ := List.exists_mem_of_length_pos (by omega :
        0 < (clausesWithId c key).length)
      exact Or.inr (clausesWithId_mem_map_id c key y hy)
  have hkept : ∀ (lines : List PageLine) (side : Side),
      (extractDocumentStructure lines side).sections =
        (extractSections (attachSuperscripts (filterFooterLines lines)) side).sections := by
    intro lines side
    simp only [extractDocumentStructure]
  refine ⟨?_, ?_, ?_, ?_, ?_, ?_, hmem, fun side sec =>
    detectDuplicate_issue_count side sec, hkept⟩ <;>
    · unfold rowForKey
      rw [if_pos hdup]
      rfl

theorem C7_duplicate_ids_ambiguous_witness :
    (rowForKey constDiffLib witDupSection.clauses [witClauseX2] "1").status =
      RowStatus.ambiguous ∧
    (detectDuplicateClauseIssues Side.base witDupSection).length = 2 :=
  ⟨(C7_duplicate_ids_ambiguous constDiffLib witDupSection.clauses [witClauseX2] "1"
      (by decide)).1,
   ((C7_duplicate_ids_ambiguous constDiffLib witDupSection.clauses [witClauseX2] "1"
      (by decide)).2.2.2.2.2.2.2.1 Side.base witDupSection).trans (by decide)⟩

/-! ### Coverage accounting (the relation between `mapped` and the clause list) -/

theorem foldAppend_synthetic (bx : ℚ) (m : ℕ → Option ℚ) (ls : List PageLine) :
    ∀ acc : ClauseNode × PageLine,
      ((ls.foldl (fun acc line => (appendLineWithStructure acc.1 acc.2 line bx m, line))
        acc).1).synthetic = acc.1.synthetic := by
  induction ls with
  | nil => intro acc; rfl
  | cons l ls ih =>
    intro acc
    rw [List.foldl_cons, ih]
    rfl

theorem nonSyntheticLineSum_append (cs : List ClauseNode) (cl : ClauseNode) :
    nonSyntheticLineSum (cs ++ [cl]) =
      nonSyntheticLineSum cs + (if cl.synthetic then 0 else cl.sourceLineCount) := by
  cases h : cl.synthetic <;>
    simp [nonSyntheticLineSum, List.filter_append, List.filter_cons, h]

theorem nonSyntheticLineSum_finalize_some (cs : List ClauseNode) (cl : ClauseNode) :
    nonSyntheticLineSum (finalizeClause cs (some cl)) =
      nonSyntheticLineSum cs + (if cl.synthetic then 0 else cl.sourceLineCount) := by
  show nonSyntheticLineSum
      (cs ++ [{ cl with textPreserved := strTrimEnd cl.textPreserved }]) = _
  rw [nonSyntheticLineSum_append]

theorem flushUnmatched_fields (h : String) (side : Side) (m : ℕ → Option ℚ)
    (st : ParseState) :
    (flushUnmatched h side m st).mapped = st.mapped ∧
    (flushUnmatched h side m st).currentClause = st.currentClause ∧
    nonSyntheticLineSum (flushUnmatched h side m st).clauses =
      nonSyntheticLineSum st.clauses := by
  cases hu : st.unmatchedLines with
  | nil =>
    refine ⟨?_, ?_, ?_⟩ <;> simp [flushUnmatched, hu]
  | cons first restLines =>
    refine ⟨by simp [flushUnmatched, hu], by simp [flushUnmatched, hu], ?_⟩
    simp only [flushUnmatched, hu]
    rw [nonSyntheticLineSum_finalize_some, foldAppend_synthetic]
    simp

theorem consistent_finalizeCurrent (st : ParseState) (hc : ParseStateConsistent st) :
    ParseStateConsistent (finalizeCurrentClause st) := by
  obtain ⟨hmap, hcur⟩ := hc
  refine ⟨?_, fun cl hcl => by simp [finalizeCurrentClause] at hcl⟩
  show st.mapped = nonSyntheticLineSum (finalizeClause st.clauses st.currentClause) + 0
  cases hcc : st.currentClause with
  | none =>
    rw [hcc] at hmap
    simpa [finalizeClause] using hmap
  | some cl =>
    rw [hcc] at hmap
    rw [nonSyntheticLineSum_finalize_some, hcur cl hcc]
    simpa using hmap

theorem consistent_flushUnmatched (h : String) (side : Side) (m : ℕ → Option ℚ)
    (st : ParseState) (hc : ParseStateConsistent st) :
    ParseStateConsistent (flushUnmatched h side m st) := by
  obtain ⟨hf1, hf2, hf3⟩ := flushUnmatched_fields h side m st
  obtain ⟨hmap, hcur⟩ := hc
  refine ⟨?_, fun cl hcl => hcur cl (by rw [← hf2]; exact hcl)⟩
  rw [hf1, hf3, hf2]
  exact hmap

theorem consistent_startClause (h : String) (side : Side) (m : ℕ → Option ℚ)
    (st : ParseState) (cl : ClauseNode) (line : PageLine)
    (hc : ParseStateConsistent st) (hsyn : cl.synthetic = false)
    (hcount : cl.sourceLineCount = 1) :
    ParseStateConsistent (startClauseState h side m st cl line) := by
  have hc1 : ParseStateConsistent (flushUnmatched h side m (finalizeCurrentClause st)) :=
    consistent_flushUnmatched h side m _ (consistent_finalizeCurrent st hc)
  obtain ⟨hmap1, _⟩ := hc1
  obtain ⟨_, hf2, _⟩ := flushUnmatched_fields h side m (finalizeCurrentClause st)
  constructor
  · show (flushUnmatched h side m (finalizeCurrentClause st)).mapped + 1 =
      nonSyntheticLineSum (flushUnmatched h side m (finalizeCurrentClause st)).clauses +
        cl.sourceLineCount
    rw [hcount, hmap1, hf2]
    have hnone : (finalizeCurrentClause st).currentClause = none := rfl
    rw [hnone]
    simp
  · intro c hcl
    have hec : cl = c := by injection hcl
    rw [← hec]
    exact hsyn

theorem consistent_appendToCurrent (m : ℕ → Option ℚ) (st : ParseState)
    (line : PageLine) (hc : ParseStateConsistent st) :
    ParseStateConsistent (appendToCurrentClause m st line) := by
  obtain ⟨hmap, hcur⟩ := hc
  unfold appendToCurrentClause
  cases hcc : st.currentClause with
  | none => exact ⟨hmap, hcur⟩
  | some cl =>
    cases hll : st.currentClauseLastLine with
    | none => exact ⟨hmap, hcur⟩
    | some lastLine =>
      constructor
      · show st.mapped + 1 = nonSyntheticLineSum st.clauses +
          (appendLineWithStructure cl lastLine line st.currentClauseBaseX m).sourceLineCount
        rw [hcc] at hmap
        have hmap' : st.mapped = nonSyntheticLineSum st.clauses + cl.sourceLineCount := by
          simpa using hmap
        have hcnt : (appendLineWithStructure cl lastLine line
            st.currentClauseBaseX m).sourceLineCount = cl.sourceLineCount + 1 := rfl
        rw [hcnt, hmap']
        omega
      · intro c hcl
        have hec : appendLineWithStructure cl lastLine line st.currentClauseBaseX m = c := by
          injection hcl
        rw [← hec]
        show cl.synthetic = false
        exact hcur cl hcc

theorem consistent_upd3 (st : ParseState) (r2 l2 l3 : Option String)
    (hc : ParseStateConsistent st) :
    ParseStateConsistent { st with
      currentRootId := r2
      currentLevel2Id := l2
      currentLevel3Id := l3 } := by
  obtain ⟨hmap, hcur⟩ := hc
  exact ⟨hmap, hcur⟩

theorem consistent_parseStep (h : String) (side : Side) (m : ℕ → Option ℚ)
    (st : ParseState) (line : PageLine) (next? : Option PageLine)
    (hc : ParseStateConsistent st) :
    ParseStateConsistent (parseStep h side m st line next?).1 := by
  unfold parseStep
  dsimp only []
  repeat' split
  all_goals
    first
      | exact hc
      | exact consistent_appendToCurrent _ _ _ hc
      | (refine consistent_startClause _ _ _ _ _ _ hc ?_ ?_ <;> rfl)
      | (refine consistent_upd3 _ _ _ _ ?_
         first
           | exact hc
           | (refine consistent_startClause _ _ _ _ _ _ hc ?_ ?_ <;> rfl)
           | (refine consistent_appendToCurrent _ _ _ ?_
              first
                | (refine consistent_startClause _ _ _ _ _ _ hc ?_ ?_ <;> rfl)
                | (refine consistent_upd3 _ _ _ _ ?_
                   refine consistent_startClause _ _ _ _ _ _ hc ?_ ?_ <;> rfl)))
      | (refine consistent_appendToCurrent _ _ _ ?_
         first
           | (refine consistent_startClause _ _ _ _ _ _ hc ?_ ?_ <;> rfl)
           | (refine consistent_upd3 _ _ _ _ ?_
              refine consistent_startClause _ _ _ _ _ _ hc ?_ ?_ <;> rfl))

theorem consistent_parseGoF (h : String) (side : Side) (m : ℕ → Option ℚ) :
    ∀ (fuel : ℕ) (lines : List PageLine) (st : ParseState),
      ParseStateConsistent st →
      ParseStateConsistent (parseGoF h side m fuel st lines) := by
  intro fuel
  induction fuel with
  | zero =>
    intro lines st hc
    cases lines <;> exact hc
  | succ fuel ih =>
    intro lines st hc
    cases lines with
    | nil => exact hc
    | cons line rest =>
      exact ih _ _ (consistent_parseStep h side m st line rest.head? hc)

theorem startClauseState_mapped (h : String) (side : Side) (m : ℕ → Option ℚ)
    (st : ParseState) (cl : ClauseNode) (line : PageLine) :
    (startClauseState h side m st cl line).mapped = st.mapped + 1 := by
  show (flushUnmatched h side m (finalizeCurrentClause st)).mapped + 1 = st.mapped + 1
  rw [(flushUnmatched_fields h side m (finalizeCurrentClause st)).1]
  rfl

theorem appendToCurrentClause_mapped_le (m : ℕ → Option ℚ) (st : ParseState)
    (line : PageLine) : (appendToCurrentClause m st line).mapped ≤ st.mapped + 1 := by
  unfold appendToCurrentClause
  split
  · exact Nat.le_refl _
  · exact Nat.le_succ _

theorem parseStep_mapped (h : String) (side : Side) (m : ℕ → Option ℚ)
    (st : ParseState) (line : PageLine) (next? : Option PageLine) :
    (parseStep h side m st line next?).1.mapped ≤
      st.mapped + (if (parseStep h side m st line next?).2 then 2 else 1) := by
  unfold parseStep
  dsimp only []
  repeat' split
  all_goals try dsimp only []
  all_goals
    try refine le_trans (appendToCurrentClause_mapped_le _ _ _) ?_
  all_goals
    try simp only [startClauseState_mapped]
  all_goals try simp
  all_goals
    first
      | omega
      | (exfalso; simp_all)

theorem parseStep_flag_of_none (h : String) (side : Side) (m : ℕ → Option ℚ)
    (st : ParseState) (line : PageLine) :
    (parseStep h side m st line none).2 = false := by
  unfold parseStep
  dsimp only []
  repeat' split
  all_goals rfl

theorem parseGoF_mapped_le (h : String) (side : Side) (m : ℕ → Option ℚ) :
    ∀ (fuel : ℕ) (lines : List PageLine) (st : ParseState),
      (parseGoF h side m fuel st lines).mapped ≤ st.mapped + lines.length := by
  intro fuel
  induction fuel with
  | zero =>
    intro lines st
    cases lines with
    | nil => simp [parseGoF]
    | cons l ls =>
      show st.mapped ≤ st.mapped + (l :: ls).length
      exact Nat.le_add_right _ _
  | succ fuel ih =>
    intro lines st
    cases lines with
    | nil => simp [parseGoF]
    | cons line rest =>
      have hstep := parseStep_mapped h side m st line rest.head?
      show (parseGoF h side m fuel (parseStep h side m st line rest.head?).1
          (if (parseStep h side m st line rest.head?).2 = true then rest.tail
           else rest)).mapped ≤ st.mapped + (line :: rest).length
      cases hflag : (parseStep h side m st line rest.head?).2 with
      | false =>
        have hne : ¬(false = true) := by simp
        rw [if_neg hne]
        rw [hflag, if_neg hne] at hstep
        have hrec := ih rest (parseStep h side m st line rest.head?).1
        simp only [List.length_cons]
        omega
      | true =>
        rw [if_pos rfl]
        rw [hflag, if_pos rfl] at hstep
        cases hre : rest with
        | nil =>
          rw [hre] at hflag
          simp only [List.head?_nil] at hflag
          rw [parseStep_flag_of_none] at hflag
          simp at hflag
        | cons x xs =>
          rw [hre] at hstep
          simp only [List.tail_cons]
          have hrec := ih xs (parseStep h side m st line (x :: xs).head?).1
          simp only [List.length_cons]
          omega

/-- C1: for every section, `mappedLines` equals the number of section
lines consumed into **non-synthetic** clauses — lines flushed into the
synthetic `Unmatched N` clauses are not counted as mapped — and
`mappedLines + unmatchedLines = totalLines` where `totalLines` is the
section's line count. -/
theorem C1_coverage_mapped_nonsynthetic (header : String) (lines : List PageLine)
    (side : Side) :
    (parseSectionClauses header lines side).coverage.mappedLines =
      nonSyntheticLineSum (parseSectionClauses header lines side).clauses ∧
    (parseSectionClauses header lines side).coverage.mappedLines +
        (parseSectionClauses header lines side).coverage.unmatchedLines =
      (parseSectionClauses header lines side).coverage.totalLines ∧
    (parseSectionClauses header lines side).coverage.totalLines = lines.length := by
  have hinit : ParseStateConsistent initialParseState :=
    ⟨rfl, fun cl hcl => Option.noConfusion hcl⟩
  have hstF := consistent_parseGoF header side (buildPageSpacingMap lines)
    lines.length lines initialParseState hinit
  have hdone : ParseStateConsistent
      (flushUnmatched header side (buildPageSpacingMap lines)
        (finalizeCurrentClause (parseGo header side (buildPageSpacingMap lines)
          initialParseState lines))) :=
    consistent_flushUnmatched _ _ _ _ (consistent_finalizeCurrent _ hstF)
  obtain ⟨hd1, _⟩ := hdone
  obtain ⟨hf1, hf2, _⟩ := flushUnmatched_fields header side (buildPageSpacingMap lines)
    (finalizeCurrentClause (parseGo header side (buildPageSpacingMap lines)
      initialParseState lines))
  have hcnone : (flushUnmatched header side (buildPageSpacingMap lines)
      (finalizeCurrentClause (parseGo header side (buildPageSpacingMap lines)
        initialParseState lines))).currentClause = none := by
    rw [hf2]
    rfl
  rw [hcnone] at hd1
  have hd1' : (flushUnmatched header side (buildPageSpacingMap lines)
      (finalizeCurrentClause (parseGo header side (buildPageSpacingMap lines)
        initialParseState lines))).mapped =
      nonSyntheticLineSum (flushUnmatched header side (buildPageSpacingMap lines)
        (finalizeCurrentClause (parseGo header side (buildPageSpacingMap lines)
          initialParseState lines))).clauses := by
    simpa using hd1
  have hle : (flushUnmatched header side (buildPageSpacingMap lines)
      (finalizeCurrentClause (parseGo header side (buildPageSpacingMap lines)
        initialParseState lines))).mapped ≤ lines.length := by
    rw [hf1]
    have hb := parseGoF_mapped_le header side (buildPageSpacingMap lines)
      lines.length lines initialParseState
    calc (finalizeCurrentClause (parseGo header side (buildPageSpacingMap lines)
            initialParseState lines)).mapped
        = (parseGo header side (buildPageSpacingMap lines)
            initialParseState lines).mapped := rfl
      _ ≤ initialParseState.mapped + lines.length := hb
      _ = lines.length := Nat.zero_add _
  refine ⟨?_, ?_, rfl⟩
  · exact hd1'
  · show (flushUnmatched header side (buildPageSpacingMap lines)
        (finalizeCurrentClause (parseGo header side (buildPageSpacingMap lines)
          initialParseState lines))).mapped +
      (lines.length -
        (flushUnmatched header side (buildPageSpacingMap lines)
          (finalizeCurrentClause (parseGo header side (buildPageSpacingMap lines)
            initialParseState lines))).mapped) = lines.length
    omega

theorem keepFooterLine_iff (lines : List PageLine) (line : PageLine) :
    keepFooterLine lines line = true ↔
      ¬(inFooterBand line = true ∧
        (normalizeFooterText line.text).isEmpty = false ∧
        (headerLookup (normalizeHeader (normalizeFooterText line.text))).isSome = false ∧
        (likelyFooterLine (normalizeFooterText line.text) = true ∨
          (looksLikeClauseLine (normalizeFooterText line.text) = false ∧
           isRepeatFooterCandidate
             (buildFooterSignature (normalizeFooterText line.text)) = true ∧
           hasRepeatedFooterSignature lines
             (buildFooterSignature (normalizeFooterText line.text)) = true))) := by
  unfold keepFooterLine
  cases hband : inFooterBand line with
  | false => simp [hband]
  | true =>
    cases hemp : (normalizeFooterText line.text).isEmpty with
    | true => simp [hband, hemp]
    | false =>
      cases hhdr : (headerLookup (normalizeHeader (normalizeFooterText line.text))).isSome with
      | true => simp [hband, hemp, hhdr]
      | false =>
        cases hlik : likelyFooterLine (normalizeFooterText line.text) with
        | true => simp [hband, hemp, hhdr, hlik]
        | false =>
          cases hcls : looksLikeClauseLine (normalizeFooterText line.text) with
          | true => simp [hband, hemp, hhdr, hlik, hcls]
          | false =>
            cases hcand : isRepeatFooterCandidate
                (buildFooterSignature (normalizeFooterText line.text)) with
            | false => simp [hband, hemp, hhdr, hlik, hcls, hcand]
            | true =>
              cases hrep : hasRepeatedFooterSignature lines
                  (buildFooterSignature (normalizeFooterText line.text)) with
              | false => simp [hband, hemp, hhdr, hlik, hcls, hcand, hrep]
              | true => simp [hband, hemp, hhdr, hlik, hcls, hcand, hrep]

/-- C2 (amended): the footer filter drops a line iff it lies in the
footer band, its normalised text is non-empty, it is not a canonical
section header, and either it is a likely footer line (bare page number,
`page N [of M]` form, or known footer phrase) or — provided it does
**not** look like a clause-start line — its footer signature is a repeat
candidate seen in the footer band of at least two pages. -/
theorem C2_footer_filter_characterization (lines : List PageLine) (line : PageLine) :
    line ∈ filterFooterLines lines ↔
      line ∈ lines ∧
        ¬(inFooterBand line = true ∧
          (normalizeFooterText line.text).isEmpty = false ∧
          (headerLookup (normalizeHeader (normalizeFooterText line.text))).isSome = false ∧
          (likelyFooterLine (normalizeFooterText line.text) = true ∨
            (looksLikeClauseLine (normalizeFooterText line.text) = false ∧
             isRepeatFooterCandidate
               (buildFooterSignature (normalizeFooterText line.text)) = true ∧
             hasRepeatedFooterSignature lines
               (buildFooterSignature (normalizeFooterText line.text)) = true))) := by
  unfold filterFooterLines
  rw [List.mem_filter]
  exact and_congr_right fun _ => keepFooterLine_iff lines line

end SideBySide
